import Mathlib

/-!
Verification development for the DataIngestionValidation pipeline.

The Python sources under `src/` are shallowly embedded below:
strings are lists of characters, Python dicts are association lists
with insertion order, mutable message lists become explicit list
accumulators, raised exceptions become explicit `exc` results or
`Except` values, and external collaborators (the pandas readers and
writers, the pluggable transform and validator function registries)
are parameters.  File-system side effects are recorded as explicit
effect values and interpreted against a functional file store.
-/

/-- Strings of the embedded program, as lists of characters. -/
abbrev Str := List Char

/-- Conversion from Lean string literals to embedded strings. -/
def str (s : String) : Str := s.toList

/-- Single-quote character (code point 39), used by several source
message templates. -/
def squote : Str := [Char.ofNat 39]

/-- Embedding of the Python expression sep.join(parts). -/
def joinWith (sep : Str) : List Str → Str
  | [] => []
  | [x] => x
  | x :: y :: rest => x ++ sep ++ joinWith sep (y :: rest)

/-- Embedding of the Python substring test `sub in s`. -/
def strContains (s sub : Str) : Bool :=
  s.tails.any (fun t => sub.isPrefixOf t)

/-- Embedding of Python str(list-of-strings): elements rendered with
single quotes, separated by a comma and a space, in square brackets. -/
def pyReprList (l : List Str) : Str :=
  str "[" ++ joinWith (str ", ") (l.map (fun s => squote ++ s ++ squote)) ++ str "]"

/-- Embedding of posixpath.join for two components, as used by
os.path.join in the sources. -/
def pyJoin (a b : Str) : Str :=
  if b.head? = some '/' then b
  else if a.isEmpty ∨ a.getLast? = some '/' then a ++ b
  else a ++ '/' :: b

/-- Embedding of os.path.basename: the part of the path after the last
separator. -/
def basename (p : Str) : Str :=
  (p.reverse.takeWhile (fun c => ¬ c = '/')).reverse

/-- Companion of `basename`: the part of the path up to and including
the last separator. -/
def dirpart (p : Str) : Str :=
  (p.reverse.dropWhile (fun c => ¬ c = '/')).reverse

/-- Splits a separator-free file name at its last dot, the extension
keeping the dot.  Returns none when there is no dot. -/
def splitLastDot (s : Str) : Option (Str × Str) :=
  match s.reverse.dropWhile (fun c => ¬ c = '.') with
  | [] => none
  | _ :: stemRev =>
    some (stemRev.reverse, '.' :: (s.reverse.takeWhile (fun c => ¬ c = '.')).reverse)

/-- Embedding of os.path.splitext restricted to a separator-free base
name: leading dots never start an extension (CPython behaviour). -/
def splitextBase (s : Str) : Str × Str :=
  match splitLastDot (s.dropWhile (fun c => c = '.')) with
  | none => (s, [])
  | some (stem, ext) => (s.takeWhile (fun c => c = '.') ++ stem, ext)

/-- Embedding of os.path.splitext on a full posix path: the extension
is searched only in the part after the last separator. -/
def splitext (p : Str) : Str × Str :=
  ((dirpart p) ++ (splitextBase (basename p)).1, (splitextBase (basename p)).2)

/-- Lowercasing of an embedded string, as Python str.lower on ascii. -/
def lowerStr (s : Str) : Str := s.map Char.toLower

/-- Glob pattern tokens produced by fnmatch.translate: a star, a
single-character wildcard, a literal character, or a character class
with optional negation. -/
inductive GlobTok
  | star
  | anyChar
  | lit (c : Char)
  | cls (negated : Bool) (body : List Char)
deriving DecidableEq

/-- Scans for the closing bracket of a character class, returning the
class body and the remainder of the pattern. -/
def scanClose : List Char → Option (List Char × List Char)
  | [] => none
  | c :: rest =>
    if c = ']' then some ([], rest)
    else match scanClose rest with
      | some (body, r) => some (c :: body, r)
      | none => none

/-- Parses a character class right after an opening bracket, following
fnmatch.translate: an optional leading bang negates, and a bracket
immediately after that is a literal member of the class. -/
def parseClass (p : List Char) : Option (Bool × List Char × List Char) :=
  match p with
  | '!' :: ']' :: rest => (scanClose rest).map (fun x => (true, ']' :: x.1, x.2))
  | '!' :: rest => (scanClose rest).map (fun x => (true, x.1, x.2))
  | ']' :: rest => (scanClose rest).map (fun x => (false, ']' :: x.1, x.2))
  | _ => (scanClose p).map (fun x => (false, x.1, x.2))

/-- Tokenizes a glob pattern; the fuel argument bounds the recursion
and is instantiated with the pattern length. -/
def tokenizeGo : Nat → List Char → List GlobTok
  | 0, _ => []
  | _, [] => []
  | fuel + 1, '*' :: rest => .star :: tokenizeGo fuel rest
  | fuel + 1, '?' :: rest => .anyChar :: tokenizeGo fuel rest
  | fuel + 1, '[' :: rest =>
    match parseClass rest with
    | some (neg, body, rest2) => .cls neg body :: tokenizeGo fuel rest2
    | none => .lit '[' :: tokenizeGo fuel rest
  | fuel + 1, c :: rest => .lit c :: tokenizeGo fuel rest

/-- Tokenization of a glob pattern. -/
def tokenize (p : Str) : List GlobTok := tokenizeGo p.length p

/-- Membership of a character in a character-class body, with ranges
written low-dash-high as in fnmatch. -/
def inClass : List Char → Char → Bool
  | x :: '-' :: y :: rest, c => (x ≤ c ∧ c ≤ y) ∨ inClass rest c
  | x :: rest, c => x = c ∨ inClass rest c
  | [], _ => false

/-- Matches a token list against a name, with full-string semantics as
in the regular expression produced by fnmatch.translate. -/
def matchToks : List GlobTok → List Char → Bool
  | [], s => s.isEmpty
  | .star :: ts, s => s.tails.any (fun t => matchToks ts t)
  | .anyChar :: ts, s =>
    match s with
    | [] => false
    | _ :: ss => matchToks ts ss
  | .lit c :: ts, s =>
    match s with
    | [] => false
    | d :: ss => c = d ∧ matchToks ts ss
  | .cls neg body :: ts, s =>
    match s with
    | [] => false
    | d :: ss => (neg ≠ inClass body d) ∧ matchToks ts ss

/-- Embedding of fnmatch.fnmatch(name, pattern) on a posix system,
where os.path.normcase is the identity. -/
def fnmatch (name pattern : Str) : Bool :=
  matchToks (tokenize pattern) name

/-- Decidable equality for `Except` values with decidable components. -/
instance {α β : Type} [DecidableEq α] [DecidableEq β] : DecidableEq (Except α β) :=
  fun a b =>
    match a, b with
    | .error x, .error y =>
      if h : x = y then .isTrue (by rw [h]) else .isFalse (fun hh => by cases hh; exact h rfl)
    | .error _, .ok _ => .isFalse (fun hh => by cases hh)
    | .ok _, .error _ => .isFalse (fun hh => by cases hh)
    | .ok x, .ok y =>
      if h : x = y then .isTrue (by rw [h]) else .isFalse (fun hh => by cases hh; exact h rfl)

/-- Tabular dataset: named columns and rows of cell strings.  This is
the abstract tabular value the core treats opaquely; the two concrete
dataframe backends of the source agree on the operations used here
(column list, row count, value copy). -/
structure DataFrame where
  columns : List Str
  rows : List (List Str)
deriving DecidableEq

/-- Result of calling a validator function: a returned boolean (for a
tuple return, its first element), or a raised exception carrying the
exception text. -/
inductive VRes
  | ret (b : Bool)
  | exc (e : Str)
deriving DecidableEq

/-- Validator parameters.  The validators the claims depend on take a
list of column names; the registry may also supply no parameters. -/
abbrev VParams := List Str

/-- A validator function: from the dataset and the optional registry
parameters to a result together with the messages the function itself
appended to the shared message list during the call.  Every validator
in the source appends its messages before returning or raising, so
returning the appended suffix is a faithful rendering of the mutable
message list. -/
abbrev ValidatorFn := DataFrame → Option VParams → VRes × List Str

/-- Embedding of utils.validators.always_true_validator. -/
def always_true_validator : ValidatorFn := fun _ _ => (.ret true, [])

/-- Embedding of utils.validators.always_false_validator. -/
def always_false_validator : ValidatorFn := fun _ _ =>
  (.ret false, [str "This validator always returns False."])

/-- Embedding of utils.validators.required_columns: appends the
missing-columns message and raises when a required column is absent,
otherwise returns True. -/
def required_columns (df : DataFrame) (columns : VParams) : VRes × List Str :=
  let missing := columns.filter (fun c => ¬ df.columns.contains c)
  if missing.isEmpty then (.ret true, [])
  else (.exc (str "Mandatory columns are missing, cannot proceed with validation."),
    [str "Missing columns: " ++ joinWith (str ", ") missing])

/-- Embedding of utils.validators.additional_columns: a soft failure
listing columns not in the allowed list. -/
def additional_columns (df : DataFrame) (columns : VParams) : VRes × List Str :=
  let additional := df.columns.filter (fun c => ¬ columns.contains c)
  if additional.isEmpty then (.ret true, [])
  else (.ret false, [str "Additional columns found: " ++ joinWith (str ", ") additional])

/-- Embedding of utils.validators.is_empty_dataframe: appends a message
and raises when the dataframe has no rows, otherwise returns True. -/
def is_empty_dataframe (df : DataFrame) : VRes × List Str :=
  if df.rows.length = 0 then
    (.exc (str "The dataframe is empty, cannot proceed with validation."),
      [str "The dataframe is empty, cannot proceed with validation."])
  else (.ret true, [])

/-- Calling convention wrapper for required_columns, as dispatched by
Validator._execute_validator: calling a fixed-arity validator with the
wrong parameter shape raises a TypeError in Python, reproduced here as
an exception result.  The registry entries not modelled individually
(value_range, check_null_values, check_hierarchy) take nested
dictionary parameters outside the scope of every claim and are left to
the generic dictionary parameter of the executor theorems. -/
def required_columns_entry : ValidatorFn := fun df p =>
  match p with
  | some cols => required_columns df cols
  | none => (.exc (str "required_columns() missing 1 required positional argument: "
      ++ squote ++ str "columns" ++ squote), [])

/-- Calling convention wrapper for additional_columns, as dispatched
by Validator._execute_validator. -/
def additional_columns_entry : ValidatorFn := fun df p =>
  match p with
  | some cols => additional_columns df cols
  | none => (.exc (str "additional_columns() missing 1 required positional argument: "
      ++ squote ++ str "columns" ++ squote), [])

/-- Calling convention wrapper for is_empty_dataframe, as dispatched
by Validator._execute_validator. -/
def is_empty_dataframe_entry : ValidatorFn := fun df p =>
  match p with
  | none => is_empty_dataframe df
  | some _ => (.exc (str "is_empty_dataframe() takes 2 positional arguments but 3 were given"), [])

/-- Lookup in utils.validators.VALIDATORS_DICT for the validators
modelled above. -/
def VALIDATORS_DICT : Str → Option ValidatorFn := fun name =>
  if name = str "always_true_validator" then some always_true_validator
  else if name = str "always_false_validator" then some always_false_validator
  else if name = str "required_columns" then some required_columns_entry
  else if name = str "additional_columns" then some additional_columns_entry
  else if name = str "is_empty_dataframe" then some is_empty_dataframe_entry
  else none

/-- Status of a transform step in the step log. -/
inductive TStatus
  | success
  | failed
deriving DecidableEq

/-- One entry of the transform step log, mirroring the dictionaries
appended to transform_log in DataTransformer.execute: the step name,
a status, and for failed steps the error detail. -/
structure LogEntry where
  transform : Str
  status : TStatus
  error : Option Str
deriving DecidableEq

/-- Transform step parameters: keyword arguments as name-value pairs. -/
abbrev TParams := List (Str × Str)

/-- Result of calling a transform function: a new dataset together
with the messages appended during the call, or a raised exception. -/
inductive TRes
  | ok (df : DataFrame) (out : List Str)
  | exc (e : Str)
deriving DecidableEq

/-- A transform function from the pluggable transform registry. -/
abbrev TransformFn := DataFrame → TParams → TRes

/-- One entry of a registry rule's transform list. -/
structure TransformStep where
  name : Str
  function : Str
  order : Int
  params : TParams
deriving DecidableEq

/-- Embedding of utils.transformers.blank: copies the dataset and
appends its fixed message. -/
def blank : TransformFn := fun df _ =>
  .ok df [str "blank No operation has been correctly made."]

/-- One rule of the pattern registry: the ordered transform list and
the validators mapping in insertion order. -/
structure RegistryRule where
  transforms : List TransformStep
  validators : List (Str × Option VParams)
deriving DecidableEq

/-- The pattern registry: glob pattern keys with their rules, in
insertion order. -/
abbrev Registry := List (Str × RegistryRule)

/-- Python dict assignment d[k] = v on an association list: replaces
the value in place when the key is present, otherwise appends. -/
def dictSet {β : Type} (d : List (Str × β)) (k : Str) (v : β) : List (Str × β) :=
  if d.any (fun p => p.1 = k) then d.map (fun p => if p.1 = k then (k, v) else p)
  else d ++ [(k, v)]

/-- Python dict.update: a left fold of assignments. -/
def dictUpdate {β : Type} (d kv : List (Str × β)) : List (Str × β) :=
  kv.foldl (fun acc p => dictSet acc p.1 p.2) d

/-- Python registry[pattern] lookup; the default is never reached when
the key is a registry key. -/
def registryGet (registry : Registry) (k : Str) : RegistryRule :=
  match registry.find? (fun e => e.1 = k) with
  | some e => e.2
  | none => ⟨[], []⟩

/-- Typed content of the match-failure message strings built by
DataHandler.match_file. -/
inductive MatchError
  | noMatch (path : Str)
  | multiple (path : Str) (found : List Str)
deriving DecidableEq

/-- Rendering of a `MatchError` to the exact f-string produced by
DataHandler.match_file. -/
def renderMatchError : MatchError → Str
  | .noMatch p =>
    str "No matching pattern found in registry for: " ++ p
      ++ str ". Impossible to identify a work routine."
  | .multiple p ms =>
    str "Multiple matches found for " ++ p ++ str ": " ++ pyReprList ms
      ++ str ". Cannot uniquely identify processing routine."

/-- Embedding of DataHandler.match_file: glob-matches the base
filename against every registry pattern, returning the single matching
pattern or a typed error. -/
def match_file (registry : Registry) (p : Str) : Option Str × Option MatchError :=
  let found := (registry.map Prod.fst).filter (fun pat => fnmatch (basename p) pat)
  if found.length > 1 then (none, some (.multiple p found))
  else
    match found with
    | m :: _ => (some m, none)
    | [] => (none, some (.noMatch p))

/-- Embedding of DataHandler.read_file.  The pandas readers are the
external reader oracle; a file whose lowered path ends in neither
supported extension is rejected, and a reader exception becomes the
error-reading message. -/
def read_file (reader : Str → Except Str DataFrame) (p : Str) : Except (List Str) DataFrame :=
  if (str ".csv").isSuffixOf (lowerStr p) ∨ (str ".parquet").isSuffixOf (lowerStr p) then
    match reader p with
    | .ok d => .ok d
    | .error e => .error [str "Error reading file " ++ p ++ str ": " ++ e]
  else
    .error [str "Unsupported file format for " ++ p
      ++ str ". Only CSV and Parquet files are supported."]

/-- Loop of DataHandler.to_process_files over the input paths, with
the two dictionaries under construction as accumulators. -/
def to_process_files_go (reader : Str → Except Str DataFrame) (registry : Registry) :
    List Str → List (Str × DataFrame × Str) → List (Str × List Str) →
    List (Str × DataFrame × Str) × List (Str × List Str)
  | [], accP, accE => (accP, accE)
  | p :: rest, accP, accE =>
    match read_file reader p with
    | .error msgs => to_process_files_go reader registry rest accP (dictSet accE p msgs)
    | .ok d =>
      match match_file registry p with
      | (some pat, _) => to_process_files_go reader registry rest (dictSet accP p (d, pat)) accE
      | (none, err) =>
        to_process_files_go reader registry rest accP
          (dictSet accE p (match err with
            | some e => [renderMatchError e]
            | none => []))

/-- Embedding of DataHandler.to_process_files: reads and matches each
input file, building the dictionary of files to process and the
dictionary of files with errors. -/
def to_process_files (reader : Str → Except Str DataFrame) (registry : Registry)
    (file_paths : List Str) :
    List (Str × DataFrame × Str) × List (Str × List Str) :=
  to_process_files_go reader registry file_paths [] []

/-- Embedding of Reporter._create_report_path followed by the .txt
suffix added in write_report: join the base report path with the base
name of the input file and strip the extension. -/
def create_report_path (basePath inputFilePath : Str) : Str :=
  (splitext (pyJoin basePath (basename inputFilePath))).1

/-- Embedding of Reporter.write_report: suppressed when the message
list is empty or every message contains the substring Passed;
otherwise the report file path together with the lines written, one
message per line. -/
def write_report (basePath inputFilePath : Str) (messages : List Str) :
    Option (Str × List Str) :=
  if messages.isEmpty ∨ messages.all (fun m => strContains m (str "Passed")) then none
  else some (create_report_path basePath inputFilePath ++ str ".txt", messages)

/-- Embedding of Validator._execute_validator: calls the validator, of
a tuple result keeps the first element, and converts a raised
exception into a returned False after appending the exception text to
the message list. -/
def execute_validator (f : ValidatorFn) (df : DataFrame) (messages : List Str)
    (params : Option VParams) : Bool × List Str :=
  match f df params with
  | (.ret b, out) => (b, messages ++ out)
  | (.exc e, out) => (false, messages ++ out ++ [e])

/-- Outcome of the per-file validator loop in Validator.execute: the
loop either broke at a validator whose result was False, or ran the
whole chain; both carry the message list and the per-validator results
dictionary at that point. -/
inductive LoopOut
  | broke (messages : List Str) (results : List (Str × Bool))
  | done (messages : List Str) (results : List (Str × Bool))
deriving DecidableEq

/-- Embedding of the validator loop of Validator.execute (the for over
validators.items()): an unregistered validator name raises out of the
whole execution; a False result breaks; otherwise the result is
recorded and the loop continues. -/
def runValidators (dict : Str → Option ValidatorFn) (df : DataFrame) :
    List (Str × Option VParams) → List Str → List (Str × Bool) → Except Str LoopOut
  | [], messages, results => .ok (.done messages results)
  | (name, params) :: rest, messages, results =>
    match dict name with
    | none => .error (str "Validator " ++ name ++ str " not found")
    | some f =>
      match execute_validator f df messages params with
      | (false, messages2) => .ok (.broke messages2 results)
      | (true, messages2) => runValidators dict df rest messages2 (results ++ [(name, true)])

/-- File-system side effects of one validation run: an invocation of
Reporter.write_report, or the copy performed by save_valid_files. -/
inductive VEffect
  | report (path : Str) (messages : List Str)
  | save (path : Str)
deriving DecidableEq

/-- Embedding of the per-file part of Validator.execute: runs the
validator loop; on a break the report is written immediately and the
file contributes nothing to the returned dictionary; otherwise the
summary lines are appended and the file is either copied (all results
true) or reported, its results dictionary being merged either way. -/
def validateFile (dict : Str → Option ValidatorFn) (path : Str) (df : DataFrame)
    (validators : List (Str × Option VParams)) :
    Except Str (List VEffect × Option (List (Str × Bool))) :=
  match runValidators dict df validators [] [] with
  | .error e => .error e
  | .ok (.broke messages _) => .ok ([.report path messages], none)
  | .ok (.done messages results) =>
    let messages := messages
      ++ [str "\n\n------ VALIDATION RESULTS -------\n"]
      ++ results.map (fun r =>
        r.1 ++ str ": " ++ (if r.2 then str "Passed" else str "Failed"))
    if results.all (fun r => r.2) then .ok ([.save path], some results)
    else .ok ([.report path messages], some results)

/-- Embedding of the loop over to_process_files.items() in
Validator.execute, given the files to process: accumulates effects and
merges the per-file results dictionaries with dict.update. -/
def validatorBatchLoop (dict : Str → Option ValidatorFn) (registry : Registry) :
    List (Str × DataFrame × Str) → List VEffect → List (Str × Bool) →
    Except Str (List VEffect × List (Str × Bool))
  | [], accE, accR => .ok (accE, accR)
  | item :: rest, accE, accR =>
    match validateFile dict item.1 item.2.1 (registryGet registry item.2.2).validators with
    | .error e => .error e
    | .ok (effects, none) => validatorBatchLoop dict registry rest (accE ++ effects) accR
    | .ok (effects, some results) =>
      validatorBatchLoop dict registry rest (accE ++ effects) (dictUpdate accR results)

/-- Embedding of Validator.execute: builds the files to process, then
runs the per-file loop.  The error_files dictionary returned by
to_process_files is not used anywhere in Validator.execute. -/
def validatorExecute (dict : Str → Option ValidatorFn)
    (reader : Str → Except Str DataFrame) (registry : Registry)
    (file_paths : List Str) : Except Str (List VEffect × List (Str × Bool)) :=
  let tp := to_process_files reader registry file_paths
  validatorBatchLoop dict registry tp.1 [] []

/-- Stable insertion of a step into a list sorted by the order key:
the step is placed before the first element whose order key is greater
than or equal to its own. -/
def insertStable (t : TransformStep) : List TransformStep → List TransformStep
  | [] => [t]
  | u :: us => if t.order ≤ u.order then t :: u :: us else u :: insertStable t us

/-- Sorting of a rule's transform list by the order key, as
sorted(transforms, key=lambda x: x["order"]): Python's sorted is a
stable sort, and a stable sort is uniquely determined by its
comparison key (sortedness plus preservation of every equal-key
subsequence), so this stable insertion sort is extensionally the
sort performed by the source. -/
def sorted_transforms (ts : List TransformStep) : List TransformStep :=
  ts.foldr insertStable []

/-- Message recorded for a transform step that completed. -/
def successMsg (name : Str) : Str :=
  str "Transform " ++ squote ++ name ++ squote ++ str " completed successfully"

/-- Message and log detail recorded for an unknown transform function
identifier. -/
def notFoundMsg (fn : Str) : Str :=
  str "Transformer function " ++ squote ++ fn ++ squote ++ str " not found"

/-- Message recorded for a transform step that raised. -/
def errorInMsg (name e : Str) : Str :=
  str "Error in transform " ++ squote ++ name ++ squote ++ str ": " ++ e

/-- Embedding of the transform loop of DataTransformer.execute: each
step looks its function up in the registry dictionary, a found
function is applied to the current dataset, and only a successful step
replaces the working dataset; every step appends one log entry and its
messages. -/
def transformLoop (dict : Str → Option TransformFn) :
    List TransformStep → DataFrame → List Str → List LogEntry →
    DataFrame × List Str × List LogEntry
  | [], d, messages, log => (d, messages, log)
  | t :: rest, d, messages, log =>
    match dict t.function with
    | some f =>
      match f d t.params with
      | .ok d2 out =>
        transformLoop dict rest d2 (messages ++ out ++ [successMsg t.name])
          (log ++ [⟨t.name, .success, none⟩])
      | .exc e =>
        transformLoop dict rest d (messages ++ [errorInMsg t.name e])
          (log ++ [⟨t.name, .failed, some e⟩])
    | none =>
      transformLoop dict rest d (messages ++ [notFoundMsg t.function])
        (log ++ [⟨t.name, .failed, some (notFoundMsg t.function)⟩])

/-- Embedding of DataTransformer.save_transformed_file: the output
path is the original base name with its extension replaced by the
configured output format, under the output folder; a writer failure is
wrapped in the error-saving RuntimeError message. -/
def save_transformed_file (writer : Str → DataFrame → Except Str Unit)
    (outputFolder fmt : Str) (data : DataFrame) (originalPath : Str) : Except Str Str :=
  let originalFilename := (splitextBase (basename originalPath)).1
  let outputPath := pyJoin outputFolder (originalFilename ++ str "." ++ fmt)
  match writer outputPath data with
  | .ok _ => .ok outputPath
  | .error e => .error (str "Error saving transformed file: " ++ e)

/-- File-system side effects of one transform run: the dataset written
by save_transformed_file, or an invocation of Reporter.write_report. -/
inductive TEffect
  | write (path : Str) (data : DataFrame)
  | report (path : Str) (messages : List Str)
deriving DecidableEq

/-- Value stored per file in the transformation_results dictionary. -/
structure TransformOutcome where
  data : DataFrame
  log : List LogEntry
deriving DecidableEq

/-- Observable result of processing one file in
DataTransformer.execute: the stored outcome, the final message list,
and the side effects in order. -/
structure TransformFileResult where
  outcome : TransformOutcome
  messages : List Str
  effects : List TEffect
deriving DecidableEq

/-- Header line inserted at position zero of the messages before the
transformation report is written. -/
def transformHeader (path : Str) : Str :=
  str "\n------ TRANSFORMATION RESULTS for " ++ path ++ str " -------\n"

/-- Embedding of the per-file part of DataTransformer.execute: runs
the sorted transform chain, saves the dataset only when no log entry
failed (a save failure appending a failed save_file entry), and writes
the report whenever the message list is nonempty. -/
def transformFile (dict : Str → Option TransformFn)
    (writer : Str → DataFrame → Except Str Unit) (outputFolder fmt : Str)
    (path : Str) (df : DataFrame) (transforms : List TransformStep) :
    TransformFileResult :=
  let r1 := transformLoop dict (sorted_transforms transforms) df [] []
  let d := r1.1
  let r2 :=
    if ¬ (r1.2.2.any (fun e => e.status = .failed)) then
      match save_transformed_file writer outputFolder fmt d path with
      | .ok outputPath =>
        (r1.2.1 ++ [str "\nTransformed file saved to: " ++ outputPath], r1.2.2,
          [TEffect.write outputPath d])
      | .error e =>
        (r1.2.1 ++ [str "Error saving transformed file: " ++ e],
          r1.2.2 ++ [⟨str "save_file", .failed,
            some (str "Error saving transformed file: " ++ e)⟩],
          ([] : List TEffect))
    else (r1.2.1, r1.2.2, ([] : List TEffect))
  let effects :=
    if ¬ r2.1.isEmpty then r2.2.2 ++ [TEffect.report path (transformHeader path :: r2.1)]
    else r2.2.2
  ⟨⟨d, r2.2.1⟩, r2.1, effects⟩

/-- Embedding of the loop over to_process_files.items() in
DataTransformer.execute, given the files to process. -/
def transformerBatchLoop (dict : Str → Option TransformFn)
    (writer : Str → DataFrame → Except Str Unit) (outputFolder fmt : Str)
    (registry : Registry) :
    List (Str × DataFrame × Str) → List TEffect → List (Str × TransformOutcome) →
    List TEffect × List (Str × TransformOutcome)
  | [], accE, accR => (accE, accR)
  | item :: rest, accE, accR =>
    let r := transformFile dict writer outputFolder fmt item.1 item.2.1
      (registryGet registry item.2.2).transforms
    transformerBatchLoop dict writer outputFolder fmt registry rest
      (accE ++ r.effects) (dictSet accR item.1 r.outcome)

/-- Embedding of DataTransformer.execute: builds the files to process,
reports every file of the error dictionary, then runs the per-file
loop. -/
def transformerExecute (dict : Str → Option TransformFn)
    (writer : Str → DataFrame → Except Str Unit)
    (reader : Str → Except Str DataFrame) (registry : Registry)
    (outputFolder fmt : Str) (file_paths : List Str) :
    List TEffect × List (Str × TransformOutcome) :=
  let tp := to_process_files reader registry file_paths
  let errEffects := tp.2.map (fun e => TEffect.report e.1 e.2)
  transformerBatchLoop dict writer outputFolder fmt registry tp.1 errEffects []

/-- Dataset seen by the step following `t` in the transform chain: the
result of `t` when it succeeded, the incoming dataset otherwise. -/
def stepData (dict : Str → Option TransformFn) (d : DataFrame) (t : TransformStep) : DataFrame :=
  match dict t.function with
  | some f =>
    match f d t.params with
    | .ok d2 _ => d2
    | .exc _ => d
  | none => d

/-- Dataset produced by the last successful step of a chain: the fold
of `stepData` over the steps, failures leaving the dataset unchanged. -/
def chainData (dict : Str → Option TransformFn) (ts : List TransformStep)
    (d : DataFrame) : DataFrame :=
  ts.foldl (stepData dict) d

/-- Log entry recorded for step `t` when applied to dataset `d`. -/
def stepEntry (dict : Str → Option TransformFn) (d : DataFrame) (t : TransformStep) : LogEntry :=
  match dict t.function with
  | some f =>
    match f d t.params with
    | .ok _ _ => ⟨t.name, .success, none⟩
    | .exc e => ⟨t.name, .failed, some e⟩
  | none => ⟨t.name, .failed, some (notFoundMsg t.function)⟩

/-- Step log of a chain as a recursive specification: one entry per
step, each computed against the dataset produced by the last
successful step before it. -/
def specLog (dict : Str → Option TransformFn) : List TransformStep → DataFrame → List LogEntry
  | [], _ => []
  | t :: ts, d => stepEntry dict d t :: specLog dict ts (stepData dict d t)

/-- Messages appended for step `t` when applied to dataset `d`. -/
def stepMsgs (dict : Str → Option TransformFn) (d : DataFrame) (t : TransformStep) : List Str :=
  match dict t.function with
  | some f =>
    match f d t.params with
    | .ok _ out => out ++ [successMsg t.name]
    | .exc e => [errorInMsg t.name e]
  | none => [notFoundMsg t.function]

/-- Message list of a chain as a recursive specification. -/
def specMsgs (dict : Str → Option TransformFn) : List TransformStep → DataFrame → List Str
  | [], _ => []
  | t :: ts, d => stepMsgs dict d t ++ specMsgs dict ts (stepData dict d t)

/-- Content of a file in the functional file store: raw bytes for
copied inputs, text lines for reports. -/
inductive FileVal
  | bytes (bs : List Nat)
  | text (lines : List Str)
deriving DecidableEq

/-- Functional file store. -/
abbrev FS := Str → Option FileVal

/-- Interpretation of one validation effect against a file store:
save_valid_files copies the source file byte for byte to the output
folder under its base name (shutil.copyfile), and a write_report call
goes through the Reporter including its suppression rule. -/
def applyVEffect (outputFolder reportBase : Str) (fs : FS) : VEffect → FS
  | .save src => fun p => if p = pyJoin outputFolder (basename src) then fs src else fs p
  | .report src messages =>
    match write_report reportBase src messages with
    | some rp => fun p => if p = rp.1 then some (.text rp.2) else fs p
    | none => fs

/-- Interpretation of a list of validation effects, in order. -/
def applyVEffects (outputFolder reportBase : Str) (fs : FS) (effects : List VEffect) : FS :=
  effects.foldl (applyVEffect outputFolder reportBase) fs

/-- File path an effect of Validator.execute refers to. -/
def vEffectPath : VEffect → Str
  | .report p _ => p
  | .save p => p

/-- Keys of an association list. -/
def keysOf {β : Type} (d : List (Str × β)) : List Str := d.map Prod.fst

/-- Predicate deciding whether Validator.execute or
DataTransformer.execute will process a path rather than collect it as
an error file: the read succeeds and the match finds one pattern. -/
def processedOk (reader : Str → Except Str DataFrame) (registry : Registry) (p : Str) : Prop :=
  (∃ d, read_file reader p = .ok d) ∧ (∃ pat, (match_file registry p).1 = some pat)

/-- Sample dataset with one column and one row. -/
def dfW : DataFrame := ⟨[str "a"], [[str "1"]]⟩

/-- Sample input path. -/
def pathW : Str := str "/in/f.csv"

/-- Sample output folder. -/
def outFolderW : Str := str "/out"

/-- Sample report base path. -/
def reportBaseW : Str := str "/rep"

/-- Empty file store. -/
def fsEmpty : FS := fun _ => none

/-- Sample transform dictionary holding only the blank transform. -/
def tdictW : Str → Option TransformFn := fun n => if n = str "blank" then some blank else none

/-- Writer oracle that always succeeds. -/
def writerOkW : Str → DataFrame → Except Str Unit := fun _ _ => .ok ()

/-- Writer oracle that always fails with a fixed error. -/
def writerFailW : Str → DataFrame → Except Str Unit := fun _ _ => .error (str "disk full")

/-- Reader oracle that always yields the sample dataset. -/
def readerW : Str → Except Str DataFrame := fun _ => .ok dfW

/-- Sample rule with a single always-true validator and no transforms. -/
def ruleAW : RegistryRule := ⟨[], [(str "always_true_validator", none)]⟩

/-- Sample validation registry with two disjoint patterns. -/
def registryVW : Registry := [(str "a*.csv", ruleAW), (str "b*.csv", ruleAW)]

/-- Sample registry with one pattern, for the error-file scenarios. -/
def registryC8W : Registry := [(str "a*.csv", ruleAW)]

/-- Sample registry with one pattern for the matcher scenarios. -/
def registryC2W : Registry := [(str "sales_*.csv", ⟨[], []⟩)]

/-- Chain whose first validator returns False and whose second would
record True. -/
def chainC1W : List (Str × Option VParams) :=
  [(str "always_false_validator", none), (str "always_true_validator", none)]

/-- Chain whose validators all return True on `dfW`, including a
critical one. -/
def chainC6W : List (Str × Option VParams) :=
  [(str "always_true_validator", none), (str "required_columns", some [str "a"])]

/-- Sample transform steps: one known step. -/
def stepsW : List TransformStep := [⟨str "s1", str "blank", 1, []⟩]

/-- Sample transform steps containing an unregistered function id
between two known steps. -/
def stepsFailW : List TransformStep :=
  [⟨str "s0", str "blank", 0, []⟩, ⟨str "s1", str "nope", 1, []⟩, ⟨str "s2", str "blank", 2, []⟩]

/-- Sample transform registry. -/
def registryTW : Registry := [(str "a*.csv", ⟨stepsW, []⟩)]

/-- Sample transform steps with tied order keys, for the stable-sort
scenarios. -/
def stepsTieW : List TransformStep :=
  [⟨str "s1", str "blank", 2, []⟩, ⟨str "s2", str "blank", 1, []⟩, ⟨str "s3", str "blank", 1, []⟩]

/-- Sample path matching the sales pattern. -/
def pathSalesW : Str := str "/in/sales_q1.csv"

/-- Sample batch with one matching and one unmatched file. -/
def filesABW : List Str := [str "/in/a.csv", str "/in/b.csv"]

/-- Sample dataset with no rows. -/
def dfEmptyW : DataFrame := ⟨[str "a"], []⟩

/-- Sample step running the blank transform first. -/
def step0W : TransformStep := ⟨str "s0", str "blank", 0, []⟩

/-- Sample step with an unregistered function id. -/
def stepBadW : TransformStep := ⟨str "s1", str "nope", 1, []⟩

/-- Sample step running the blank transform last. -/
def step2W : TransformStep := ⟨str "s2", str "blank", 2, []⟩

/-- C2: for every filename and registry, if exactly one registry
pattern glob-matches the base filename then match_file returns that
pattern and no error; if none matches it returns no pattern and the
no-match error; if two or more match it returns no pattern and an
error listing all matching patterns, never picking one of them. -/
theorem C2_match_file_cases (registry : Registry) (p : Str) :
    (∀ m, (registry.map Prod.fst).filter (fun pat => fnmatch (basename p) pat) = [m] →
      match_file registry p = (some m, none)) ∧
    ((registry.map Prod.fst).filter (fun pat => fnmatch (basename p) pat) = [] →
      match_file registry p = (none, some (.noMatch p))) ∧
    (∀ found, (registry.map Prod.fst).filter (fun pat => fnmatch (basename p) pat) = found →
      2 ≤ found.length →
      match_file registry p = (none, some (.multiple p found))) := by
  refine ⟨?_, ?_, ?_⟩
  · intro m hm
    simp only [match_file, hm]
    rfl
  · intro hm
    simp only [match_file, hm]
    rfl
  · intro found hm hlen
    simp only [match_file, hm]
    rw [if_pos (by omega : found.length > 1)]

/-- Witness for C2 at a concrete registry and filename with exactly
one matching pattern. -/
theorem C2_match_file_cases_witness :
    (registryC2W.map Prod.fst).filter (fun pat => fnmatch (basename pathSalesW) pat) =
      [str "sales_*.csv"] ∧
    match_file registryC2W pathSalesW = (some (str "sales_*.csv"), none) :=
  ⟨by decide, (C2_match_file_cases registryC2W pathSalesW).1 (str "sales_*.csv") (by decide)⟩

/-- Helper: `insertStable` permutes the inserted element to the front. -/
theorem insertStable_perm (t : TransformStep) (l : List TransformStep) :
    List.Perm (insertStable t l) (t :: l) := by
  induction l with
  | nil => simp [insertStable]
  | cons u us ih =>
    by_cases hc : t.order ≤ u.order
    · simp [insertStable, hc]
    · simp only [insertStable, if_neg hc]
      exact (ih.cons u).trans (List.Perm.swap t u us)

/-- Helper: `sorted_transforms` is a permutation of its input. -/
theorem sorted_transforms_perm (ts : List TransformStep) :
    List.Perm (sorted_transforms ts) ts := by
  induction ts with
  | nil => rfl
  | cons t rest ih =>
    exact (insertStable_perm t (sorted_transforms rest)).trans (ih.cons t)

/-- Helper: `insertStable` preserves sortedness by the order key. -/
theorem insertStable_pairwise (t : TransformStep) (l : List TransformStep)
    (h : l.Pairwise (fun a b => a.order ≤ b.order)) :
    (insertStable t l).Pairwise (fun a b => a.order ≤ b.order) := by
  induction l with
  | nil => simp [insertStable]
  | cons u us ih =>
    rw [List.pairwise_cons] at h
    by_cases hc : t.order ≤ u.order
    · simp only [insertStable, if_pos hc]
      rw [List.pairwise_cons]
      refine ⟨?_, List.pairwise_cons.mpr h⟩
      intro b hb
      rcases List.mem_cons.mp hb with hb | hb
      · rw [hb]; exact hc
      · exact le_trans hc (h.1 b hb)
    · simp only [insertStable, if_neg hc]
      rw [List.pairwise_cons]
      refine ⟨?_, ih h.2⟩
      intro b hb
      have hb2 : b ∈ t :: us := (insertStable_perm t us).mem_iff.mp hb
      rcases List.mem_cons.mp hb2 with hb3 | hb3
      · rw [hb3]; omega
      · exact h.1 b hb3

/-- Helper: `sorted_transforms` is sorted by the order key. -/
theorem sorted_transforms_pairwise (ts : List TransformStep) :
    (sorted_transforms ts).Pairwise (fun a b => a.order ≤ b.order) := by
  induction ts with
  | nil => exact List.Pairwise.nil
  | cons t rest ih => exact insertStable_pairwise t (sorted_transforms rest) ih

/-- Helper: inserting a step puts it in front of every element sharing
its order key. -/
theorem insertStable_filter_eq (t : TransformStep) (l : List TransformStep) :
    (insertStable t l).filter (fun x => x.order = t.order) =
      t :: l.filter (fun x => x.order = t.order) := by
  induction l with
  | nil => simp [insertStable]
  | cons u us ih =>
    by_cases hc : t.order ≤ u.order
    · simp [insertStable, hc]
    · have hne : ¬ (u.order = t.order) := by omega
      simp [insertStable, hc, List.filter_cons, hne, ih]

/-- Helper: inserting a step does not disturb the subsequence of any
other order key. -/
theorem insertStable_filter_ne (t : TransformStep) (l : List TransformStep) (k : Int)
    (hk : ¬ t.order = k) :
    (insertStable t l).filter (fun x => x.order = k) = l.filter (fun x => x.order = k) := by
  induction l with
  | nil => simp [insertStable, hk]
  | cons u us ih =>
    by_cases hc : t.order ≤ u.order
    · simp [insertStable, hc, List.filter_cons, hk]
    · simp [insertStable, hc, List.filter_cons, ih]

/-- C10: the transform chain executed by transformFile is
sorted_transforms of the declared steps; it is a permutation of them
(every step executes exactly once) in ascending numeric order key, and
for every key the subsequence of steps sharing that key equals their
original declaration subsequence, so tied keys keep declaration order
and the execution order is a deterministic function of the declared
chain. -/
theorem C10_sorted_transforms_stable (ts : List TransformStep) :
    (sorted_transforms ts).Pairwise (fun a b => a.order ≤ b.order) ∧
    List.Perm (sorted_transforms ts) ts ∧
    (∀ k : Int, (sorted_transforms ts).filter (fun x => x.order = k) =
      ts.filter (fun x => x.order = k)) := by
  refine ⟨sorted_transforms_pairwise ts, sorted_transforms_perm ts, ?_⟩
  intro k
  induction ts with
  | nil => rfl
  | cons t rest ih =>
    show (insertStable t (sorted_transforms rest)).filter _ = _
    by_cases hk : t.order = k
    · have h2 := insertStable_filter_eq t (sorted_transforms rest)
      rw [hk] at h2
      rw [h2, ih]
      simp [List.filter_cons, hk]
    · rw [insertStable_filter_ne t (sorted_transforms rest) k hk, ih]
      simp [List.filter_cons, hk]

/-- Helper: every character of a base name differs from the path
separator. -/
theorem basename_noSep (p : Str) : ∀ c ∈ basename p, ¬ c = '/' := by
  intro c hc
  unfold basename at hc
  have h2 := List.mem_takeWhile_imp (List.mem_reverse.mp hc)
  simpa using h2

/-- Helper: appending a separator-free suffix extends the base name. -/
theorem basename_append (a b : Str) (hb : ∀ c ∈ b, ¬ c = '/') :
    basename (a ++ b) = basename a ++ b := by
  unfold basename
  rw [List.reverse_append, List.takeWhile_append_of_pos, List.reverse_append,
    List.reverse_reverse]
  intro c hc
  simpa using hb c (List.mem_reverse.mp hc)

/-- Helper: appending a separator-free suffix keeps the directory
part. -/
theorem dirpart_append (a b : Str) (hb : ∀ c ∈ b, ¬ c = '/') :
    dirpart (a ++ b) = dirpart a := by
  unfold dirpart
  rw [List.reverse_append, List.dropWhile_append_of_pos]
  intro c hc
  simpa using hb c (List.mem_reverse.mp hc)

/-- Helper: a path ending in the separator has an empty base name and
is its own directory part. -/
theorem basename_endSep (a : Str) (ha : a.getLast? = some '/') :
    basename a = [] ∧ dirpart a = a := by
  have hh : a.reverse.head? = some '/' := by rw [List.head?_reverse]; exact ha
  rcases har : a.reverse with _ | ⟨c, t⟩
  · rw [har] at hh; cases hh
  · rw [har] at hh
    have hcd : c = '/' := by
      simp only [List.head?] at hh
      exact Option.some.inj hh
    subst hcd
    constructor
    · unfold basename
      rw [har]
      rfl
    · unfold dirpart
      rw [har]
      have : List.dropWhile (fun c => ¬ c = '/') ('/' :: t) = '/' :: t := by
        rw [List.dropWhile_cons]
        simp
      rw [this, ← har, List.reverse_reverse]

/-- Helper: the stem computed by splitextBase only uses characters of
the input name. -/
theorem splitextBase_fst_mem (s : Str) : ∀ c ∈ (splitextBase s).1, c ∈ s := by
  intro c hc
  unfold splitextBase at hc
  rcases hsplit : splitLastDot (s.dropWhile (fun c => c = '.')) with _ | ⟨stem, ext⟩
  · rw [hsplit] at hc
    exact hc
  · rw [hsplit] at hc
    rcases List.mem_append.mp hc with h | h
    · exact (List.takeWhile_sublist _).subset h
    · unfold splitLastDot at hsplit
      rcases hdrop : (s.dropWhile (fun c => c = '.')).reverse.dropWhile (fun c => ¬ c = '.')
        with _ | ⟨x, stemRev⟩
      · rw [hdrop] at hsplit; cases hsplit
      · rw [hdrop] at hsplit
        have hstem : stem = stemRev.reverse :=
          (((Prod.mk.injEq _ _ _ _).mp (Option.some.inj hsplit)).1).symm
        subst hstem
        have h1 : c ∈ stemRev := List.mem_reverse.mp h
        have h2 : c ∈ x :: stemRev := List.mem_cons_of_mem x h1
        rw [← hdrop] at h2
        have h3 : c ∈ (s.dropWhile (fun c => c = '.')).reverse :=
          (List.dropWhile_sublist _).subset h2
        exact (List.dropWhile_sublist _).subset (List.mem_reverse.mp h3)

/-- Helper: the report file path built by the Reporter equals the base
report path joined with the base name of the input whose extension is
replaced by the report extension. -/
theorem create_report_path_eq (base input : Str) :
    create_report_path base input ++ str ".txt" =
      pyJoin base ((splitextBase (basename input)).1 ++ str ".txt") := by
  have hn : ∀ c ∈ basename input, ¬ c = '/' := basename_noSep input
  have hnhead : ¬ (basename input).head? = some '/' := by
    intro hh
    rcases hb : basename input with _ | ⟨c, t⟩
    · rw [hb] at hh; cases hh
    · rw [hb] at hh
      have : c = '/' := by
        simp only [List.head?] at hh
        exact Option.some.inj hh
      exact hn c (by rw [hb]; exact List.mem_cons_self c t) this
  have hxhead : ¬ ((splitextBase (basename input)).1 ++ str ".txt").head? = some '/' := by
    intro hh
    rcases hb : (splitextBase (basename input)).1 with _ | ⟨c, t⟩
    · rw [hb] at hh
      cases hh
    · rw [hb] at hh
      simp only [List.cons_append, List.head?] at hh
      have hc : c = '/' := Option.some.inj hh
      exact hn c (splitextBase_fst_mem (basename input) c (by rw [hb]; exact List.mem_cons_self c t)) hc
  unfold create_report_path splitext
  by_cases h1 : base.isEmpty ∨ base.getLast? = some '/'
  · have hbase : basename base = [] ∧ dirpart base = base := by
      rcases h1 with h1 | h1
      · rw [List.isEmpty_iff] at h1
        subst h1
        exact ⟨rfl, rfl⟩
      · exact basename_endSep base h1
    have hjoin : pyJoin base (basename input) = base ++ basename input := by
      unfold pyJoin
      rw [if_neg hnhead, if_pos h1]
    have hjoin2 : pyJoin base ((splitextBase (basename input)).1 ++ str ".txt") =
        base ++ ((splitextBase (basename input)).1 ++ str ".txt") := by
      unfold pyJoin
      rw [if_neg hxhead, if_pos h1]
    rw [hjoin, hjoin2, basename_append base (basename input) hn,
      dirpart_append base (basename input) hn, hbase.1, hbase.2]
    simp [List.append_assoc]
  · push_neg at h1
    have hjoin : pyJoin base (basename input) = (base ++ ['/']) ++ basename input := by
      unfold pyJoin
      rw [if_neg hnhead, if_neg (by push_neg; exact h1)]
      simp
    have hjoin2 : pyJoin base ((splitextBase (basename input)).1 ++ str ".txt") =
        base ++ '/' :: ((splitextBase (basename input)).1 ++ str ".txt") := by
      unfold pyJoin
      rw [if_neg hxhead, if_neg (by push_neg; exact h1)]
    have hend : (base ++ ['/']).getLast? = some '/' := List.getLast?_concat base
    rw [hjoin, hjoin2, basename_append _ (basename input) hn,
      dirpart_append _ (basename input) hn, (basename_endSep _ hend).1,
      (basename_endSep _ hend).2]
    simp [List.append_assoc]

/-- C9: write_report writes nothing exactly when the message list is
empty or every message contains the literal substring Passed; when it
writes, the report path is the base report path joined with the input
file's base name whose extension is replaced by .txt, and the lines
written are exactly the messages in order, one per line. -/
theorem C9_write_report_spec (base input : Str) (messages : List Str) :
    (write_report base input messages = none ↔
      messages = [] ∨ ∀ m ∈ messages, strContains m (str "Passed") = true) ∧
    (∀ rp lines, write_report base input messages = some (rp, lines) →
      rp = pyJoin base ((splitextBase (basename input)).1 ++ str ".txt") ∧
      lines = messages) := by
  constructor
  · unfold write_report
    by_cases h : messages.isEmpty ∨ messages.all (fun m => strContains m (str "Passed"))
    · rw [if_pos h]
      simp only [true_iff]
      rcases h with h | h
      · exact Or.inl (List.isEmpty_iff.mp h)
      · exact Or.inr (List.all_eq_true.mp h)
    · rw [if_neg h]
      simp only [reduceCtorEq, false_iff]
      push_neg at h
      intro hcon
      rcases hcon with hcon | hcon
      · exact absurd (by rw [hcon]; rfl) h.1
      · exact absurd (List.all_eq_true.mpr hcon) h.2
  · intro rp lines hw
    unfold write_report at hw
    by_cases h : messages.isEmpty ∨ messages.all (fun m => strContains m (str "Passed"))
    · rw [if_pos h] at hw; cases hw
    · rw [if_neg h] at hw
      have h2 := Option.some.inj hw
      have h3 : rp = create_report_path base input ++ str ".txt" :=
        (((Prod.mk.injEq _ _ _ _).mp h2).1).symm
      have h4 : lines = messages := (((Prod.mk.injEq _ _ _ _).mp h2).2).symm
      exact ⟨h3.trans (create_report_path_eq base input), h4⟩

/-- Witness for C9 at a concrete base path, input file and message
list that is not suppressed. -/
theorem C9_write_report_spec_witness :
    write_report reportBaseW pathW [str "bad thing"] =
      some (pyJoin reportBaseW ((splitextBase (basename pathW)).1 ++ str ".txt"),
        [str "bad thing"]) := by
  have h := (C9_write_report_spec reportBaseW pathW [str "bad thing"]).2
    (create_report_path reportBaseW pathW ++ str ".txt") [str "bad thing"] rfl
  rw [← h.1]
  rfl

/-- Helper: the transform loop equals the recursive specification of
the final dataset, the appended messages and the appended log. -/
theorem transformLoop_eq_spec (dict : Str → Option TransformFn) (ts : List TransformStep) :
    ∀ (d : DataFrame) (messages : List Str) (log : List LogEntry),
    transformLoop dict ts d messages log =
      (chainData dict ts d, messages ++ specMsgs dict ts d, log ++ specLog dict ts d) := by
  induction ts with
  | nil =>
    intro d m l
    simp [transformLoop, chainData, specMsgs, specLog]
  | cons t rest ih =>
    intro d m l
    rcases hf : dict t.function with _ | f
    · simp [transformLoop, chainData, specMsgs, specLog, stepMsgs, stepEntry, stepData, hf, ih,
        List.foldl_cons, List.append_assoc]
    · rcases hr : f d t.params with ⟨d2, out⟩ | e
      · simp [transformLoop, chainData, specMsgs, specLog, stepMsgs, stepEntry, stepData, hf, hr,
          ih, List.foldl_cons, List.append_assoc]
      · simp [transformLoop, chainData, specMsgs, specLog, stepMsgs, stepEntry, stepData, hf, hr,
          ih, List.foldl_cons, List.append_assoc]

/-- Helper: the specification log of a chain concatenation. -/
theorem specLog_append (dict : Str → Option TransformFn) (xs ys : List TransformStep) :
    ∀ d, specLog dict (xs ++ ys) d = specLog dict xs d ++ specLog dict ys (chainData dict xs d) := by
  induction xs with
  | nil => intro d; simp [specLog, chainData]
  | cons x xt ih => intro d; simp [specLog, chainData, ih, List.foldl_cons]

/-- Helper: the dataset after a chain concatenation. -/
theorem chainData_append (dict : Str → Option TransformFn) (xs ys : List TransformStep) (d : DataFrame) :
    chainData dict (xs ++ ys) d = chainData dict ys (chainData dict xs d) := by
  simp [chainData, List.foldl_append]

/-- C5: in a transform chain a step whose function id is unknown, or
whose execution raises, is logged as failed with its detail message,
the chain still logs one entry for every step before and after it, and
every subsequent step executes against the dataset produced by the
last successful step (the failing step leaves the dataset unchanged);
the final dataset is the fold over the whole chain. -/
theorem C5_failed_step_continues (dict : Str → Option TransformFn)
    (d : DataFrame) (pre post : List TransformStep) (t : TransformStep) :
    (transformLoop dict (pre ++ t :: post) d [] []).2.2 =
      specLog dict pre d
        ++ stepEntry dict (chainData dict pre d) t
          :: specLog dict post (stepData dict (chainData dict pre d) t) ∧
    (transformLoop dict (pre ++ t :: post) d [] []).1 =
      chainData dict post (stepData dict (chainData dict pre d) t) ∧
    (dict t.function = none →
      stepEntry dict (chainData dict pre d) t =
        ⟨t.name, .failed, some (notFoundMsg t.function)⟩ ∧
      stepData dict (chainData dict pre d) t = chainData dict pre d) ∧
    (∀ f e, dict t.function = some f →
      f (chainData dict pre d) t.params = .exc e →
      stepEntry dict (chainData dict pre d) t = ⟨t.name, .failed, some e⟩ ∧
      stepData dict (chainData dict pre d) t = chainData dict pre d) := by
  refine ⟨?_, ?_, ?_, ?_⟩
  · rw [transformLoop_eq_spec]
    simp only [List.nil_append]
    rw [specLog_append]
    simp [specLog]
  · rw [transformLoop_eq_spec]
    simp only []
    rw [chainData_append]
    simp [chainData, List.foldl_cons]
  · intro hf
    unfold stepEntry stepData
    rw [hf]
    exact ⟨rfl, rfl⟩
  · intro f e hf hr
    exact ⟨by simp [stepEntry, hf, hr], by simp [stepData, hf, hr]⟩

/-- Witness for C5 at a concrete chain whose middle step has an
unregistered function id between two successful steps. -/
theorem C5_failed_step_continues_witness :
    tdictW stepBadW.function = none ∧
    stepEntry tdictW (chainData tdictW [step0W] dfW) stepBadW =
      ⟨stepBadW.name, .failed, some (notFoundMsg stepBadW.function)⟩ ∧
    stepData tdictW (chainData tdictW [step0W] dfW) stepBadW = chainData tdictW [step0W] dfW ∧
    (transformLoop tdictW ([step0W] ++ stepBadW :: [step2W]) dfW [] []).2.2 =
      specLog tdictW [step0W] dfW
        ++ stepEntry tdictW (chainData tdictW [step0W] dfW) stepBadW
          :: specLog tdictW [step2W] (stepData tdictW (chainData tdictW [step0W] dfW) stepBadW) :=
  ⟨rfl,
    ((C5_failed_step_continues tdictW dfW [step0W] [step2W] stepBadW).2.2.1 rfl).1,
    ((C5_failed_step_continues tdictW dfW [step0W] [step2W] stepBadW).2.2.1 rfl).2,
    (C5_failed_step_continues tdictW dfW [step0W] [step2W] stepBadW).1⟩

/-- Helper: every step appends at least one message. -/
theorem stepMsgs_ne_nil (dict : Str → Option TransformFn) (d : DataFrame) (t : TransformStep) :
    stepMsgs dict d t ≠ [] := by
  unfold stepMsgs
  rcases hf : dict t.function with _ | f
  · simp
  · rcases hr : f d t.params with ⟨d2, out⟩ | e <;> simp [hr]

/-- Helper: the specification log is empty exactly for the empty
chain. -/
theorem specLog_eq_nil_iff (dict : Str → Option TransformFn) (ts : List TransformStep)
    (d : DataFrame) : specLog dict ts d = [] ↔ ts = [] := by
  cases ts <;> simp [specLog]

/-- Helper: a nonempty chain appends at least one message. -/
theorem specMsgs_ne_nil (dict : Str → Option TransformFn) (ts : List TransformStep)
    (d : DataFrame) (h : ¬ ts = []) : ¬ specMsgs dict ts d = [] := by
  cases ts with
  | nil => exact absurd rfl h
  | cons t rest =>
    intro hcon
    unfold specMsgs at hcon
    exact stepMsgs_ne_nil dict d t (List.append_eq_nil.mp hcon).1

/-- Helper: a step status that is not failed is success. -/
theorem tstatus_of_not_failed (s : TStatus) (h : ¬ s = .failed) : s = .success := by
  cases s
  · rfl
  · exact absurd rfl h

/-- Helper: shape of transformFile when some chain step failed: no
save is attempted and the messages are reported under the banner. -/
theorem transformFile_eq_of_fail (dict : Str → Option TransformFn)
    (writer : Str → DataFrame → Except Str Unit) (outputFolder fmt path : Str)
    (df : DataFrame) (ts : List TransformStep)
    (hfail : (specLog dict (sorted_transforms ts) df).any (fun e => e.status = .failed) = true)
    (hne : ¬ (specMsgs dict (sorted_transforms ts) df).isEmpty = true) :
    transformFile dict writer outputFolder fmt path df ts =
      ⟨⟨chainData dict (sorted_transforms ts) df, specLog dict (sorted_transforms ts) df⟩,
        specMsgs dict (sorted_transforms ts) df,
        [TEffect.report path
          (transformHeader path :: specMsgs dict (sorted_transforms ts) df)]⟩ := by
  simp only [transformFile]
  rw [transformLoop_eq_spec]
  simp only [List.nil_append, hfail]
  rw [if_neg (by simp)]
  rw [if_pos hne]
  rfl

/-- Helper: shape of transformFile when every chain step succeeded and
the writer succeeds: the dataset is written and the messages, noting
the saved path, are reported under the banner. -/
theorem transformFile_eq_of_save_ok (dict : Str → Option TransformFn)
    (writer : Str → DataFrame → Except Str Unit) (outputFolder fmt path : Str)
    (df : DataFrame) (ts : List TransformStep) (u : Unit)
    (hfail : (specLog dict (sorted_transforms ts) df).any (fun e => e.status = .failed) = false)
    (hw : writer (pyJoin outputFolder ((splitextBase (basename path)).1 ++ str "." ++ fmt))
      (chainData dict (sorted_transforms ts) df) = .ok u) :
    transformFile dict writer outputFolder fmt path df ts =
      ⟨⟨chainData dict (sorted_transforms ts) df, specLog dict (sorted_transforms ts) df⟩,
        specMsgs dict (sorted_transforms ts) df
          ++ [str "\nTransformed file saved to: "
            ++ pyJoin outputFolder ((splitextBase (basename path)).1 ++ str "." ++ fmt)],
        [TEffect.write (pyJoin outputFolder ((splitextBase (basename path)).1 ++ str "." ++ fmt))
          (chainData dict (sorted_transforms ts) df),
         TEffect.report path (transformHeader path ::
          (specMsgs dict (sorted_transforms ts) df
            ++ [str "\nTransformed file saved to: "
              ++ pyJoin outputFolder ((splitextBase (basename path)).1 ++ str "." ++ fmt)]))]⟩ := by
  simp only [transformFile]
  rw [transformLoop_eq_spec]
  simp only [List.nil_append, hfail]
  rw [if_pos (by simp)]
  simp only [save_transformed_file]
  rw [hw]
  rw [if_pos (by simp)]
  rfl

/-- Helper: shape of transformFile when every chain step succeeded but
the writer fails: a failed save_file entry is appended, nothing is
written, and the messages are reported under the banner. -/
theorem transformFile_eq_of_save_err (dict : Str → Option TransformFn)
    (writer : Str → DataFrame → Except Str Unit) (outputFolder fmt path : Str)
    (df : DataFrame) (ts : List TransformStep) (e2 : Str)
    (hfail : (specLog dict (sorted_transforms ts) df).any (fun e => e.status = .failed) = false)
    (hw : writer (pyJoin outputFolder ((splitextBase (basename path)).1 ++ str "." ++ fmt))
      (chainData dict (sorted_transforms ts) df) = .error e2) :
    transformFile dict writer outputFolder fmt path df ts =
      ⟨⟨chainData dict (sorted_transforms ts) df,
        specLog dict (sorted_transforms ts) df
          ++ [⟨str "save_file", .failed, some (str "Error saving transformed file: "
            ++ (str "Error saving transformed file: " ++ e2))⟩]⟩,
        specMsgs dict (sorted_transforms ts) df
          ++ [str "Error saving transformed file: "
            ++ (str "Error saving transformed file: " ++ e2)],
        [TEffect.report path (transformHeader path ::
          (specMsgs dict (sorted_transforms ts) df
            ++ [str "Error saving transformed file: "
              ++ (str "Error saving transformed file: " ++ e2)]))]⟩ := by
  simp only [transformFile]
  rw [transformLoop_eq_spec]
  simp only [List.nil_append, hfail]
  rw [if_pos (by simp)]
  simp only [save_transformed_file]
  rw [hw]
  rw [if_pos (by simp)]
  rfl

/-- C4: the transformed dataset is written if and only if every entry
of the final step log has status success; when any entry is recorded
failed, nothing is written for the file and the full message log,
headed by the transformation-results banner, is handed to the
Reporter; any written dataset goes to the output folder under the
original base name with the configured output extension and is the
final working dataset. -/
theorem C4_persist_iff_all_success (dict : Str → Option TransformFn)
    (writer : Str → DataFrame → Except Str Unit) (outputFolder fmt path : Str)
    (df : DataFrame) (ts : List TransformStep) (r : TransformFileResult)
    (hr : r = transformFile dict writer outputFolder fmt path df ts) :
    ((∃ p dd, TEffect.write p dd ∈ r.effects) ↔ ∀ e ∈ r.outcome.log, e.status = .success) ∧
    ((∃ e ∈ r.outcome.log, e.status = .failed) →
      (∀ p dd, ¬ TEffect.write p dd ∈ r.effects) ∧
      TEffect.report path (transformHeader path :: r.messages) ∈ r.effects) ∧
    (∀ p dd, TEffect.write p dd ∈ r.effects →
      p = pyJoin outputFolder ((splitextBase (basename path)).1 ++ str "." ++ fmt) ∧
      dd = r.outcome.data) := by
  by_cases hfail :
      (specLog dict (sorted_transforms ts) df).any (fun e => e.status = .failed) = true
  · have hlog_ne : ¬ sorted_transforms ts = [] := by
      intro hc
      rw [(specLog_eq_nil_iff dict (sorted_transforms ts) df).mpr hc] at hfail
      simp at hfail
    have hne : ¬ (specMsgs dict (sorted_transforms ts) df).isEmpty = true := by
      simp only [List.isEmpty_iff]
      exact specMsgs_ne_nil dict (sorted_transforms ts) df hlog_ne
    rw [transformFile_eq_of_fail dict writer outputFolder fmt path df ts hfail hne] at hr
    subst hr
    obtain ⟨x, hxmem, hxfail⟩ := List.any_eq_true.mp hfail
    refine ⟨?_, ?_, ?_⟩
    · constructor
      · intro ⟨p, dd, hp⟩
        rcases List.mem_singleton.mp hp
      · intro hall
        have := hall x hxmem
        rw [this] at hxfail
        simp at hxfail
    · intro _
      constructor
      · intro p dd hp
        rcases List.mem_singleton.mp hp
      · exact List.mem_singleton.mpr rfl
    · intro p dd hp
      rcases List.mem_singleton.mp hp
  · rw [Bool.not_eq_true] at hfail
    have hsucc : ∀ e ∈ specLog dict (sorted_transforms ts) df, e.status = .success := by
      intro e he
      refine tstatus_of_not_failed e.status ?_
      intro hef
      have := List.any_eq_false.mp hfail e he
      simp [hef] at this
    rcases hw : writer (pyJoin outputFolder ((splitextBase (basename path)).1 ++ str "." ++ fmt))
        (chainData dict (sorted_transforms ts) df) with e2 | u
    · rw [transformFile_eq_of_save_err dict writer outputFolder fmt path df ts e2 hfail hw] at hr
      subst hr
      refine ⟨?_, ?_, ?_⟩
      · constructor
        · intro ⟨p, dd, hp⟩
          rcases List.mem_singleton.mp hp
        · intro hall
          have := hall ⟨str "save_file", .failed, some (str "Error saving transformed file: "
            ++ (str "Error saving transformed file: " ++ e2))⟩ (by simp)
          cases this
      · intro _
        constructor
        · intro p dd hp
          rcases List.mem_singleton.mp hp
        · exact List.mem_singleton.mpr rfl
      · intro p dd hp
        rcases List.mem_singleton.mp hp
    · rw [transformFile_eq_of_save_ok dict writer outputFolder fmt path df ts u hfail hw] at hr
      subst hr
      refine ⟨?_, ?_, ?_⟩
      · constructor
        · intro _
          exact hsucc
        · intro _
          exact ⟨pyJoin outputFolder ((splitextBase (basename path)).1 ++ str "." ++ fmt),
            chainData dict (sorted_transforms ts) df, by simp⟩
      · intro ⟨e, he, hef⟩
        have := hsucc e he
        rw [this] at hef
        cases hef
      · intro p dd hp
        simp only [List.mem_cons, List.mem_singleton] at hp
        rcases hp with hp | hp
        · have h2 := (TEffect.write.injEq _ _ _ _).mp hp
          exact ⟨h2.1, h2.2⟩
        · rcases hp with hp | hp
          · cases hp
          · cases hp

/-- Witness for C4 at a concrete failing chain: the unknown function
id yields a failed entry, no dataset is written, and the message log
is reported. -/
theorem C4_persist_iff_all_success_witness :
    (∃ e ∈ (transformFile tdictW writerOkW outFolderW (str "csv") pathW dfW [stepBadW]).outcome.log,
      e.status = .failed) ∧
    ((∀ p dd, ¬ TEffect.write p dd ∈
      (transformFile tdictW writerOkW outFolderW (str "csv") pathW dfW [stepBadW]).effects) ∧
    TEffect.report pathW (transformHeader pathW ::
        (transformFile tdictW writerOkW outFolderW (str "csv") pathW dfW [stepBadW]).messages) ∈
      (transformFile tdictW writerOkW outFolderW (str "csv") pathW dfW [stepBadW]).effects) :=
  ⟨by decide,
    (C4_persist_iff_all_success tdictW writerOkW outFolderW (str "csv") pathW dfW [stepBadW]
      _ rfl).2.1 (by decide)⟩

/-- Helper: the validator loop over a concatenation runs the second
part exactly when the first part completed without a break. -/
theorem runValidators_append (dict : Str → Option ValidatorFn) (df : DataFrame)
    (xs ys : List (Str × Option VParams)) :
    ∀ messages results,
    runValidators dict df (xs ++ ys) messages results =
      match runValidators dict df xs messages results with
      | .ok (.done m r) => runValidators dict df ys m r
      | other => other := by
  induction xs with
  | nil =>
    intro m r
    simp [runValidators]
  | cons x xt ih =>
    intro m r
    rcases x with ⟨name, params⟩
    simp only [List.cons_append, runValidators]
    rcases hd : dict name with _ | f
    · rfl
    · dsimp only
      rcases he : execute_validator f df m params with ⟨b, m2⟩
      cases b
      · rfl
      · exact ih m2 (r ++ [(name, true)])

/-- Helper: a validator call whose result is False breaks the chain:
the per-file run reports the accumulated messages immediately,
contributes no results, and does not depend on the remaining
validators. -/
theorem validateFile_break_of_false (dict : Str → Option ValidatorFn) (path : Str)
    (df : DataFrame) (pre post : List (Str × Option VParams)) (name : Str)
    (params : Option VParams) (f : ValidatorFn) (msgs : List Str)
    (results : List (Str × Bool))
    (hpre : runValidators dict df pre [] [] = .ok (.done msgs results))
    (hf : dict name = some f)
    (hfalse : (execute_validator f df msgs params).1 = false) :
    validateFile dict path df (pre ++ (name, params) :: post) =
      .ok ([.report path (execute_validator f df msgs params).2], none) := by
  unfold validateFile
  rw [runValidators_append dict df pre ((name, params) :: post) [] [], hpre]
  simp only [runValidators, hf]
  rcases he : execute_validator f df msgs params with ⟨b, m2⟩
  rw [he] at hfalse
  simp only at hfalse
  subst hfalse
  rfl

/-- Counterexample to C1: in a chain whose first validator merely
returns False without raising, the second validator is never invoked
and no result is collected — the run equals the run of the chain
truncated right after the failing validator, and the file contributes
no results dictionary at all. -/
theorem C1_counterexample_false_does_not_continue :
    validateFile VALIDATORS_DICT pathW dfW chainC1W =
      .ok ([VEffect.report pathW [str "This validator always returns False."]], none) ∧
    validateFile VALIDATORS_DICT pathW dfW (chainC1W.take 1) =
      .ok ([VEffect.report pathW [str "This validator always returns False."]], none) ∧
    ¬ ∃ effects results, validateFile VALIDATORS_DICT pathW dfW chainC1W =
      .ok (effects, some results) := by
  refine ⟨by decide, by decide, ?_⟩
  intro ⟨effects, results, h⟩
  have hv : validateFile VALIDATORS_DICT pathW dfW chainC1W =
      .ok ([VEffect.report pathW [str "This validator always returns False."]], none) := by
    decide
  rw [hv] at h
  exact Option.noConfusion ((Prod.mk.injEq _ _ _ _).mp (Except.ok.inj h)).2

/-- C1 amended: a non-critical validator returning False stops the
chain exactly as a raised exception does (the executor converts a
raise into a returned False after appending the exception text): the
message list accumulated so far is reported immediately, no remaining
validator is invoked (the run does not depend on them), and the file
contributes no results. -/
theorem C1_amended_false_stops_chain (dict : Str → Option ValidatorFn) (path : Str)
    (df : DataFrame) (pre post : List (Str × Option VParams)) (name : Str)
    (params : Option VParams) (f : ValidatorFn) (msgs : List Str)
    (results : List (Str × Bool))
    (hpre : runValidators dict df pre [] [] = .ok (.done msgs results))
    (hf : dict name = some f)
    (hfalse : (execute_validator f df msgs params).1 = false) :
    validateFile dict path df (pre ++ (name, params) :: post) =
      .ok ([.report path (execute_validator f df msgs params).2], none) :=
  validateFile_break_of_false dict path df pre post name params f msgs results hpre hf hfalse

/-- Witness for C1 amended at a concrete chain and dataset. -/
theorem C1_amended_false_stops_chain_witness :
    validateFile VALIDATORS_DICT pathW dfW
      ([] ++ (str "always_false_validator", none) :: [(str "always_true_validator", none)]) =
      .ok ([.report pathW (execute_validator always_false_validator dfW [] none).2], none) :=
  C1_amended_false_stops_chain VALIDATORS_DICT pathW dfW [] [(str "always_true_validator", none)]
    (str "always_false_validator") none always_false_validator [] [] rfl rfl rfl

/-- C3: a critical validator raising its failure condition — the
required-columns check with missing columns, or the dataset-emptiness
check on a dataset with no rows — aborts the chain: the run does not
depend on the validators after it, the file contributes no results,
and the accumulated messages, including the critical failure message
and the exception text, are reported immediately. -/
theorem C3_critical_raise_aborts (path : Str) (df : DataFrame)
    (pre post : List (Str × Option VParams)) (msgs : List Str)
    (results : List (Str × Bool)) (cols : VParams)
    (hpre : runValidators VALIDATORS_DICT df pre [] [] = .ok (.done msgs results)) :
    (¬ cols.filter (fun c => ¬ df.columns.contains c) = [] →
      validateFile VALIDATORS_DICT path df
          (pre ++ (str "required_columns", some cols) :: post) =
        .ok ([.report path (msgs
          ++ [str "Missing columns: "
              ++ joinWith (str ", ") (cols.filter (fun c => ¬ df.columns.contains c)),
            str "Mandatory columns are missing, cannot proceed with validation."])], none)) ∧
    (df.rows = [] →
      validateFile VALIDATORS_DICT path df
          (pre ++ (str "is_empty_dataframe", none) :: post) =
        .ok ([.report path (msgs
          ++ [str "The dataframe is empty, cannot proceed with validation.",
            str "The dataframe is empty, cannot proceed with validation."])], none)) := by
  constructor
  · intro hmiss
    have hie : (cols.filter (fun c => ¬ df.columns.contains c)).isEmpty = false := by
      rcases hcl : cols.filter (fun c => ¬ df.columns.contains c) with _ | ⟨c, cs⟩
      · exact absurd hcl hmiss
      · rfl
    have hrc : required_columns df cols =
        (.exc (str "Mandatory columns are missing, cannot proceed with validation."),
          [str "Missing columns: "
            ++ joinWith (str ", ") (cols.filter (fun c => ¬ df.columns.contains c))]) := by
      simp only [required_columns]
      rw [hie]
      rfl
    have hexec : execute_validator required_columns_entry df msgs (some cols) =
        (false, msgs
          ++ [str "Missing columns: "
              ++ joinWith (str ", ") (cols.filter (fun c => ¬ df.columns.contains c)),
            str "Mandatory columns are missing, cannot proceed with validation."]) := by
      simp only [execute_validator, required_columns_entry]
      rw [hrc]
      simp
    have h := validateFile_break_of_false VALIDATORS_DICT path df pre post
      (str "required_columns") (some cols) required_columns_entry msgs results hpre rfl
      (by rw [hexec])
    rw [hexec] at h
    exact h
  · intro hrows
    have hied : is_empty_dataframe df =
        (.exc (str "The dataframe is empty, cannot proceed with validation."),
          [str "The dataframe is empty, cannot proceed with validation."]) := by
      simp only [is_empty_dataframe, hrows, List.length_nil]
      rfl
    have hexec : execute_validator is_empty_dataframe_entry df msgs none =
        (false, msgs
          ++ [str "The dataframe is empty, cannot proceed with validation.",
            str "The dataframe is empty, cannot proceed with validation."]) := by
      simp only [execute_validator, is_empty_dataframe_entry]
      rw [hied]
      simp
    have h := validateFile_break_of_false VALIDATORS_DICT path df pre post
      (str "is_empty_dataframe") none is_empty_dataframe_entry msgs results hpre rfl
      (by rw [hexec])
    rw [hexec] at h
    exact h

/-- Witness for C3 at a concrete dataset missing one required column,
after one passing validator. -/
theorem C3_critical_raise_aborts_witness :
    validateFile VALIDATORS_DICT pathW dfW
        ([(str "always_true_validator", none)]
          ++ (str "required_columns", some [str "a", str "b"])
            :: [(str "always_false_validator", none)]) =
      .ok ([.report pathW
        ([] ++ [str "Missing columns: "
            ++ joinWith (str ", ") (([str "a", str "b"]).filter
              (fun c => ¬ dfW.columns.contains c)),
          str "Mandatory columns are missing, cannot proceed with validation."])], none) :=
  (C3_critical_raise_aborts pathW dfW [(str "always_true_validator", none)]
    [(str "always_false_validator", none)] [] [(str "always_true_validator", true)]
    [str "a", str "b"] rfl).1 (by decide)

/-- Helper: a chain whose validators all return True runs to the end
without a break, recording True per validator in declaration order. -/
theorem runValidators_allTrue (dict : Str → Option ValidatorFn) (df : DataFrame) :
    ∀ (chain : List (Str × Option VParams)),
    (∀ np ∈ chain, ∃ f, dict np.1 = some f ∧ (f df np.2).1 = VRes.ret true) →
    ∀ msgs results, ∃ m2,
    runValidators dict df chain msgs results =
      .ok (.done m2 (results ++ chain.map (fun np => (np.1, true)))) := by
  intro chain
  induction chain with
  | nil =>
    intro _ msgs results
    exact ⟨msgs, by simp [runValidators]⟩
  | cons np rest ih =>
    intro h msgs results
    obtain ⟨f, hf, hres⟩ := h np (List.mem_cons_self np rest)
    rcases np with ⟨name, params⟩
    simp only [runValidators, hf]
    rcases hfr : f df params with ⟨r, out⟩
    rw [hfr] at hres
    simp only at hres
    subst hres
    have hev : execute_validator f df msgs params = (true, msgs ++ out) := by
      simp only [execute_validator]
      rw [hfr]
    rw [hev]
    dsimp only
    obtain ⟨m2, hm⟩ := ih (fun q hq => h q (List.mem_cons_of_mem (name, params) hq))
      (msgs ++ out) (results ++ [(name, true)])
    refine ⟨m2, ?_⟩
    rw [hm]
    simp [List.append_assoc]

/-- C6: when every validator of the chain returns True, the per-file
run emits exactly one effect — the copy of the original input file —
and records True per validator; interpreting the effects against any
file store puts the input file's exact content at the output folder
under the preserved base name, and changes nothing else, so no report
file is produced. -/
theorem C6_all_pass_copy_no_report (dict : Str → Option ValidatorFn)
    (path : Str) (df : DataFrame) (chain : List (Str × Option VParams))
    (outputFolder reportBase : Str) (fs : FS)
    (h : ∀ np ∈ chain, ∃ f, dict np.1 = some f ∧ (f df np.2).1 = VRes.ret true) :
    validateFile dict path df chain =
      .ok ([VEffect.save path], some (chain.map (fun np => (np.1, true)))) ∧
    applyVEffects outputFolder reportBase fs [VEffect.save path]
        (pyJoin outputFolder (basename path)) = fs path ∧
    (∀ q, ¬ q = pyJoin outputFolder (basename path) →
      applyVEffects outputFolder reportBase fs [VEffect.save path] q = fs q) := by
  refine ⟨?_, ?_, ?_⟩
  · obtain ⟨m2, hm⟩ := runValidators_allTrue dict df chain h [] []
    unfold validateFile
    rw [hm]
    simp only [List.nil_append]
    rw [if_pos (by simp [List.all_eq_true])]
  · simp [applyVEffects, applyVEffect]
  · intro q hq
    simp [applyVEffects, applyVEffect, hq]

/-- Witness for C6 at a concrete chain containing a passing critical
validator. -/
theorem C6_all_pass_copy_no_report_witness :
    validateFile VALIDATORS_DICT pathW dfW chainC6W =
      .ok ([VEffect.save pathW], some (chainC6W.map (fun np => (np.1, true)))) :=
  (C6_all_pass_copy_no_report VALIDATORS_DICT pathW dfW chainC6W outFolderW reportBaseW
    fsEmpty (by
      intro np hnp
      rcases List.mem_cons.mp hnp with h1 | hnp2
      · subst h1
        exact ⟨always_true_validator, rfl, rfl⟩
      · rcases List.mem_cons.mp hnp2 with h2 | h3
        · subst h2
          exact ⟨required_columns_entry, rfl, rfl⟩
        · cases h3)).1

/-- Helper: assigning an absent key appends the binding. -/
theorem dictSet_of_not_mem {β : Type} (d : List (Str × β)) (k : Str) (v : β)
    (h : ¬ k ∈ keysOf d) : dictSet d k v = d ++ [(k, v)] := by
  unfold dictSet
  rw [if_neg]
  intro hc
  obtain ⟨p, hp, hpk⟩ := List.any_eq_true.mp hc
  have hk2 : p.1 = k := by simpa using hpk
  exact h (hk2 ▸ List.mem_map_of_mem Prod.fst hp)

/-- Helper: membership in the keys after a dict assignment. -/
theorem keysOf_dictSet_mem {β : Type} (d : List (Str × β)) (k : Str) (v : β) (p : Str) :
    p ∈ keysOf (dictSet d k v) ↔ p ∈ keysOf d ∨ p = k := by
  unfold dictSet
  by_cases hc : d.any (fun q => q.1 = k) = true
  · rw [if_pos hc]
    have hkeys : keysOf (d.map (fun q => if q.1 = k then (k, v) else q)) = keysOf d := by
      unfold keysOf
      rw [List.map_map]
      refine List.map_congr_left ?_
      intro q _
      by_cases hq : q.1 = k
      · simp [hq]
      · simp [hq]
    rw [hkeys]
    obtain ⟨q, hq, hqk⟩ := List.any_eq_true.mp hc
    constructor
    · exact Or.inl
    · intro hor
      rcases hor with hp | hp
      · exact hp
      · have hq2 : q.1 = k := by simpa using hqk
        rw [hp, ← hq2]
        exact List.mem_map_of_mem Prod.fst hq
  · rw [if_neg hc]
    unfold keysOf
    rw [List.map_append, List.mem_append]
    rw [show (List.map Prod.fst [(k, v)] : List Str) = [k] from rfl]
    rw [List.mem_singleton]

/-- Helper: a dict assignment preserves distinctness of the keys. -/
theorem keysOf_dictSet_nodup {β : Type} (d : List (Str × β)) (k : Str) (v : β)
    (h : (keysOf d).Nodup) : (keysOf (dictSet d k v)).Nodup := by
  unfold dictSet
  by_cases hc : d.any (fun q => q.1 = k) = true
  · rw [if_pos hc]
    have hkeys : keysOf (d.map (fun q => if q.1 = k then (k, v) else q)) = keysOf d := by
      unfold keysOf
      rw [List.map_map]
      refine List.map_congr_left ?_
      intro q _
      by_cases hq : q.1 = k
      · simp [hq]
      · simp [hq]
    rw [hkeys]
    exact h
  · rw [if_neg hc]
    have hk : ¬ k ∈ keysOf d := by
      intro hm
      obtain ⟨q, hq, hqk⟩ := List.mem_map.mp hm
      exact hc (List.any_eq_true.mpr ⟨q, hq, by simp [hqk]⟩)
    unfold keysOf
    simp only [List.map_append, List.map_cons, List.map_nil]
    rw [List.nodup_append]
    refine ⟨h, List.nodup_singleton k, ?_⟩
    intro a ha hak
    rw [List.mem_singleton] at hak
    subst hak
    exact hk ha

/-- Helper: the dictionaries built by to_process_files have distinct
keys. -/
theorem to_process_files_go_nodup (reader : Str → Except Str DataFrame) (registry : Registry) :
    ∀ (paths : List Str) (accP : List (Str × DataFrame × Str)) (accE : List (Str × List Str)),
    (keysOf accP).Nodup → (keysOf accE).Nodup →
    (keysOf (to_process_files_go reader registry paths accP accE).1).Nodup ∧
    (keysOf (to_process_files_go reader registry paths accP accE).2).Nodup := by
  intro paths
  induction paths with
  | nil =>
    intro accP accE hP hE
    exact ⟨hP, hE⟩
  | cons q rest ih =>
    intro accP accE hP hE
    simp only [to_process_files_go]
    rcases hr : read_file reader q with msgs | d
    · exact ih accP (dictSet accE q msgs) hP (keysOf_dictSet_nodup accE q msgs hE)
    · rcases hm : match_file registry q with ⟨optPat, err⟩
      cases optPat with
      | some pat =>
        exact ih (dictSet accP q (d, pat)) accE (keysOf_dictSet_nodup accP q (d, pat) hP) hE
      | none =>
        exact ih accP (dictSet accE q _) hP (keysOf_dictSet_nodup accE q _ hE)

/-- Helper: a path lands among the processed keys exactly when it was
offered and passes reading and matching, and among the error keys
exactly when it was offered and fails one of them. -/
theorem to_process_files_go_mem (reader : Str → Except Str DataFrame) (registry : Registry) :
    ∀ (paths : List Str) (accP : List (Str × DataFrame × Str)) (accE : List (Str × List Str))
      (p : Str),
    (p ∈ keysOf (to_process_files_go reader registry paths accP accE).1 ↔
      p ∈ keysOf accP ∨ (p ∈ paths ∧ processedOk reader registry p)) ∧
    (p ∈ keysOf (to_process_files_go reader registry paths accP accE).2 ↔
      p ∈ keysOf accE ∨ (p ∈ paths ∧ ¬ processedOk reader registry p)) := by
  intro paths
  induction paths with
  | nil =>
    intro accP accE p
    simp [to_process_files_go]
  | cons q rest ih =>
    intro accP accE p
    simp only [to_process_files_go]
    rcases hr : read_file reader q with msgs | d
    · have hok : ¬ processedOk reader registry q := by
        intro ⟨⟨d2, hd2⟩, _⟩
        rw [hr] at hd2
        cases hd2
      have h2 := ih accP (dictSet accE q msgs) p
      rw [h2.1, h2.2, keysOf_dictSet_mem]
      constructor
      · constructor
        · intro h3
          rcases h3 with h3 | h3
          · exact Or.inl h3
          · exact Or.inr ⟨List.mem_cons_of_mem q h3.1, h3.2⟩
        · intro h3
          rcases h3 with h3 | ⟨h4, h5⟩
          · exact Or.inl h3
          · rcases List.mem_cons.mp h4 with h6 | h6
            · subst h6
              exact absurd h5 hok
            · exact Or.inr ⟨h6, h5⟩
      · constructor
        · intro h3
          rcases h3 with (h3 | h3) | h3
          · exact Or.inl h3
          · subst h3
            exact Or.inr ⟨List.mem_cons_self _ rest, hok⟩
          · exact Or.inr ⟨List.mem_cons_of_mem q h3.1, h3.2⟩
        · intro h3
          rcases h3 with h3 | ⟨h4, h5⟩
          · exact Or.inl (Or.inl h3)
          · rcases List.mem_cons.mp h4 with h6 | h6
            · exact Or.inl (Or.inr h6)
            · exact Or.inr ⟨h6, h5⟩
    · rcases hm : match_file registry q with ⟨optPat, err⟩
      cases optPat with
      | some pat =>
        dsimp only
        have hok : processedOk reader registry q :=
          ⟨⟨d, hr⟩, ⟨pat, by rw [hm]⟩⟩
        have h2 := ih (dictSet accP q (d, pat)) accE p
        rw [h2.1, h2.2, keysOf_dictSet_mem]
        constructor
        · constructor
          · intro h3
            rcases h3 with (h3 | h3) | h3
            · exact Or.inl h3
            · subst h3
              exact Or.inr ⟨List.mem_cons_self _ rest, hok⟩
            · exact Or.inr ⟨List.mem_cons_of_mem q h3.1, h3.2⟩
          · intro h3
            rcases h3 with h3 | ⟨h4, h5⟩
            · exact Or.inl (Or.inl h3)
            · rcases List.mem_cons.mp h4 with h6 | h6
              · exact Or.inl (Or.inr h6)
              · exact Or.inr ⟨h6, h5⟩
        · constructor
          · intro h3
            rcases h3 with h3 | h3
            · exact Or.inl h3
            · exact Or.inr ⟨List.mem_cons_of_mem q h3.1, h3.2⟩
          · intro h3
            rcases h3 with h3 | ⟨h4, h5⟩
            · exact Or.inl h3
            · rcases List.mem_cons.mp h4 with h6 | h6
              · subst h6
                exact absurd hok h5
              · exact Or.inr ⟨h6, h5⟩
      | none =>
        dsimp only
        have hok : ¬ processedOk reader registry q := by
          intro ⟨_, ⟨pat, hpat⟩⟩
          rw [hm] at hpat
          cases hpat
        rw [(ih _ _ p).1, (ih _ _ p).2, keysOf_dictSet_mem]
        constructor
        · constructor
          · intro h3
            rcases h3 with h3 | h3
            · exact Or.inl h3
            · exact Or.inr ⟨List.mem_cons_of_mem q h3.1, h3.2⟩
          · intro h3
            rcases h3 with h3 | ⟨h4, h5⟩
            · exact Or.inl h3
            · rcases List.mem_cons.mp h4 with h6 | h6
              · subst h6
                exact absurd h5 hok
              · exact Or.inr ⟨h6, h5⟩
        · constructor
          · intro h3
            rcases h3 with (h3 | h3) | h3
            · exact Or.inl h3
            · subst h3
              exact Or.inr ⟨List.mem_cons_self _ rest, hok⟩
            · exact Or.inr ⟨List.mem_cons_of_mem q h3.1, h3.2⟩
          · intro h3
            rcases h3 with h3 | ⟨h4, h5⟩
            · exact Or.inl (Or.inl h3)
            · rcases List.mem_cons.mp h4 with h6 | h6
              · exact Or.inl (Or.inr h6)
              · exact Or.inr ⟨h6, h5⟩

/-- Helper: the transform batch loop appends per-file effects and
binds every processed file exactly once to its own outcome, computed
from its own dataset and rule alone, whenever the processed keys are
distinct. -/
theorem transformerBatchLoop_spec (dict : Str → Option TransformFn)
    (writer : Str → DataFrame → Except Str Unit) (outputFolder fmt : Str)
    (registry : Registry) :
    ∀ (tp : List (Str × DataFrame × Str)) (accE : List TEffect)
      (accR : List (Str × TransformOutcome)),
    (keysOf tp).Nodup → (∀ it ∈ tp, ¬ it.1 ∈ keysOf accR) →
    transformerBatchLoop dict writer outputFolder fmt registry tp accE accR =
      (accE ++ (tp.map (fun it => (transformFile dict writer outputFolder fmt it.1 it.2.1
          (registryGet registry it.2.2).transforms).effects)).flatten,
       accR ++ tp.map (fun it => (it.1,
         (transformFile dict writer outputFolder fmt it.1 it.2.1
           (registryGet registry it.2.2).transforms).outcome))) := by
  intro tp
  induction tp with
  | nil =>
    intro accE accR _ _
    simp [transformerBatchLoop]
  | cons it rest ih =>
    intro accE accR hnd hmem
    have hnd2 : (keysOf rest).Nodup ∧ ¬ it.1 ∈ keysOf rest := by
      have := hnd
      unfold keysOf at this
      rw [List.map_cons, List.nodup_cons] at this
      exact ⟨this.2, this.1⟩
    simp only [transformerBatchLoop]
    rw [dictSet_of_not_mem accR it.1 _ (hmem it (List.mem_cons_self it rest))]
    rw [ih (accE ++ (transformFile dict writer outputFolder fmt it.1 it.2.1
        (registryGet registry it.2.2).transforms).effects)
      (accR ++ [(it.1, (transformFile dict writer outputFolder fmt it.1 it.2.1
        (registryGet registry it.2.2).transforms).outcome)])
      hnd2.1 ?_]
    · simp [List.append_assoc]
    · intro j hj
      unfold keysOf
      rw [List.map_append, List.mem_append]
      intro hc
      rcases hc with hc | hc
      · exact hmem j (List.mem_cons_of_mem it hj) hc
      · simp only [List.map_cons, List.map_nil, List.mem_singleton] at hc
        exact hnd2.2 (hc ▸ List.mem_map_of_mem Prod.fst hj)

/-- Helper: every effect emitted for one file in Validator.execute
carries that file's path. -/
theorem validateFile_effect_path (dict : Str → Option ValidatorFn) (path : Str)
    (df : DataFrame) (chain : List (Str × Option VParams)) :
    ∀ res eff, validateFile dict path df chain = .ok res → eff ∈ res.1 →
      vEffectPath eff = path := by
  intro res eff hv heff
  unfold validateFile at hv
  rcases hrun : runValidators dict df chain [] [] with e | lo
  · rw [hrun] at hv
    cases hv
  · rw [hrun] at hv
    rcases lo with ⟨m, r⟩ | ⟨m, r⟩
    · dsimp only at hv
      rw [← Except.ok.inj hv] at heff
      rw [List.mem_singleton.mp heff]
      rfl
    · dsimp only at hv
      by_cases hall : r.all (fun x => x.2) = true
      · rw [if_pos hall] at hv
        rw [← Except.ok.inj hv] at heff
        rw [List.mem_singleton.mp heff]
        rfl
      · rw [if_neg hall] at hv
        rw [← Except.ok.inj hv] at heff
        rw [List.mem_singleton.mp heff]
        rfl

/-- Helper: every effect of the validator batch loop comes from the
starting accumulator or carries the path of one processed file. -/
theorem validatorBatchLoop_effect_paths (dict : Str → Option ValidatorFn)
    (registry : Registry) :
    ∀ (tp : List (Str × DataFrame × Str)) (accE : List VEffect)
      (accR : List (Str × Bool)) (effs : List VEffect) (res : List (Str × Bool)),
    validatorBatchLoop dict registry tp accE accR = .ok (effs, res) →
    ∀ eff ∈ effs, eff ∈ accE ∨ ∃ it ∈ tp, vEffectPath eff = it.1 := by
  intro tp
  induction tp with
  | nil =>
    intro accE accR effs res hloop eff heff
    simp only [validatorBatchLoop] at hloop
    rw [← ((Prod.mk.injEq _ _ _ _).mp (Except.ok.inj hloop)).1] at heff
    exact Or.inl heff
  | cons it rest ih =>
    intro accE accR effs res hloop eff heff
    simp only [validatorBatchLoop] at hloop
    rcases hv : validateFile dict it.1 it.2.1 (registryGet registry it.2.2).validators
      with e | ⟨effects, ores⟩
    · rw [hv] at hloop
      cases hloop
    · rw [hv] at hloop
      have hpaths : ∀ x ∈ effects, vEffectPath x = it.1 := by
        intro x hx
        exact validateFile_effect_path dict it.1 it.2.1
          (registryGet registry it.2.2).validators (effects, ores) x hv hx
      cases ores with
      | none =>
        dsimp only at hloop
        have h2 := ih (accE ++ effects) accR effs res hloop eff heff
        rcases h2 with h2 | ⟨j, hj, hjp⟩
        · rcases List.mem_append.mp h2 with h3 | h3
          · exact Or.inl h3
          · exact Or.inr ⟨it, List.mem_cons_self it rest, hpaths eff h3⟩
        · exact Or.inr ⟨j, List.mem_cons_of_mem it hj, hjp⟩
      | some results2 =>
        dsimp only at hloop
        have h2 := ih (accE ++ effects) (dictUpdate accR results2) effs res hloop eff heff
        rcases h2 with h2 | ⟨j, hj, hjp⟩
        · rcases List.mem_append.mp h2 with h3 | h3
          · exact Or.inl h3
          · exact Or.inr ⟨it, List.mem_cons_self it rest, hpaths eff h3⟩
        · exact Or.inr ⟨j, List.mem_cons_of_mem it hj, hjp⟩

/-- Helper: every result recorded by the validator loop was already
recorded or is keyed by a validator name of the chain. -/
theorem runValidators_result_mem (dict : Str → Option ValidatorFn) (df : DataFrame) :
    ∀ (chain : List (Str × Option VParams)) (msgs : List Str) (results : List (Str × Bool))
      (out : LoopOut),
    runValidators dict df chain msgs results = .ok out →
    ∀ kv ∈ (match out with | LoopOut.broke _ r => r | LoopOut.done _ r => r),
      kv ∈ results ∨ kv.1 ∈ chain.map Prod.fst := by
  intro chain
  induction chain with
  | nil =>
    intro msgs results out h kv hkv
    simp only [runValidators] at h
    rw [← Except.ok.inj h] at hkv
    exact Or.inl hkv
  | cons np rest ih =>
    intro msgs results out h kv hkv
    rcases np with ⟨name, params⟩
    simp only [runValidators] at h
    rcases hd : dict name with _ | f
    · rw [hd] at h
      cases h
    · rw [hd] at h
      dsimp only at h
      rcases he : execute_validator f df msgs params with ⟨b, m2⟩
      rw [he] at h
      cases b
      · dsimp only at h
        rw [← Except.ok.inj h] at hkv
        exact Or.inl hkv
      · dsimp only at h
        have h2 := ih m2 (results ++ [(name, true)]) out h kv hkv
        rcases h2 with h2 | h2
        · rcases List.mem_append.mp h2 with h3 | h3
          · exact Or.inl h3
          · rw [List.mem_singleton.mp h3]
            exact Or.inr (by simp)
        · exact Or.inr (by simp [h2])

/-- Helper: every result a file contributes is keyed by one of its
chain's validator names. -/
theorem validateFile_result_keys (dict : Str → Option ValidatorFn) (path : Str)
    (df : DataFrame) (chain : List (Str × Option VParams)) (effs : List VEffect)
    (res : List (Str × Bool)) :
    validateFile dict path df chain = .ok (effs, some res) →
    ∀ kv ∈ res, kv.1 ∈ chain.map Prod.fst := by
  intro hv kv hkv
  unfold validateFile at hv
  rcases hrun : runValidators dict df chain [] [] with e | lo
  · rw [hrun] at hv
    cases hv
  · rw [hrun] at hv
    rcases lo with ⟨m, r⟩ | ⟨m, r⟩
    · dsimp only at hv
      exact Option.noConfusion ((Prod.mk.injEq _ _ _ _).mp (Except.ok.inj hv)).2
    · dsimp only at hv
      have hres : r = res := by
        by_cases hall : r.all (fun x => x.2) = true
        · rw [if_pos hall] at hv
          exact Option.some.inj ((Prod.mk.injEq _ _ _ _).mp (Except.ok.inj hv)).2
        · rw [if_neg hall] at hv
          exact Option.some.inj ((Prod.mk.injEq _ _ _ _).mp (Except.ok.inj hv)).2
      have h2 := runValidators_result_mem dict df chain [] [] (.done m r) hrun kv
        (by rw [hres]; exact hkv)
      rcases h2 with h2 | h2
      · cases h2
      · exact h2

/-- Helper: keys after dict.update come from either dictionary. -/
theorem keysOf_dictUpdate_mem {β : Type} :
    ∀ (kv d : List (Str × β)) (x : Str),
    x ∈ keysOf (dictUpdate d kv) → x ∈ keysOf d ∨ x ∈ keysOf kv := by
  intro kv
  induction kv with
  | nil =>
    intro d x h
    exact Or.inl h
  | cons p rest ih =>
    intro d x h
    have h2 := ih (dictSet d p.1 p.2) x (by
      unfold dictUpdate at h ⊢
      rw [List.foldl_cons] at h
      exact h)
    rcases h2 with h2 | h2
    · rcases (keysOf_dictSet_mem d p.1 p.2 x).mp h2 with h3 | h3
      · exact Or.inl h3
      · refine Or.inr ?_
        rw [h3]
        exact List.mem_map_of_mem Prod.fst (List.mem_cons_self p rest)
    · refine Or.inr ?_
      unfold keysOf at h2 ⊢
      rw [List.map_cons]
      exact List.mem_cons_of_mem p.1 h2

/-- Helper: every key of the validator batch result is a validator
name from the rule of one processed file. -/
theorem validatorBatchLoop_result_keys (dict : Str → Option ValidatorFn)
    (registry : Registry) :
    ∀ (tp : List (Str × DataFrame × Str)) (accE : List VEffect) (accR : List (Str × Bool))
      (effs : List VEffect) (res : List (Str × Bool)),
    validatorBatchLoop dict registry tp accE accR = .ok (effs, res) →
    ∀ x ∈ keysOf res, x ∈ keysOf accR ∨
      ∃ it ∈ tp, x ∈ keysOf (registryGet registry it.2.2).validators := by
  intro tp
  induction tp with
  | nil =>
    intro accE accR effs res hloop x hx
    simp only [validatorBatchLoop] at hloop
    rw [← ((Prod.mk.injEq _ _ _ _).mp (Except.ok.inj hloop)).2] at hx
    exact Or.inl hx
  | cons it rest ih =>
    intro accE accR effs res hloop x hx
    simp only [validatorBatchLoop] at hloop
    rcases hv : validateFile dict it.1 it.2.1 (registryGet registry it.2.2).validators
      with e | ⟨effects, ores⟩
    · rw [hv] at hloop
      cases hloop
    · rw [hv] at hloop
      cases ores with
      | none =>
        dsimp only at hloop
        rcases ih (accE ++ effects) accR effs res hloop x hx with h2 | ⟨j, hj, hjx⟩
        · exact Or.inl h2
        · exact Or.inr ⟨j, List.mem_cons_of_mem it hj, hjx⟩
      | some results2 =>
        dsimp only at hloop
        rcases ih (accE ++ effects) (dictUpdate accR results2) effs res hloop x hx
          with h2 | ⟨j, hj, hjx⟩
        · rcases keysOf_dictUpdate_mem results2 accR x h2 with h3 | h3
          · exact Or.inl h3
          · obtain ⟨kv, hkv, hkvx⟩ := List.mem_map.mp h3
            refine Or.inr ⟨it, List.mem_cons_self it rest, ?_⟩
            rw [← hkvx]
            exact validateFile_result_keys dict it.1 it.2.1
              (registryGet registry it.2.2).validators effects results2 hv kv hkv
        · exact Or.inr ⟨j, List.mem_cons_of_mem it hj, hjx⟩

/-- Counterexample to C7: a validation batch over two files returns a
dictionary keyed by validator name, not by file path — the two files
collapse into a single entry and neither file path appears as a key. -/
theorem C7_counterexample_validator_results_not_file_keyed :
    validatorExecute VALIDATORS_DICT readerW registryVW filesABW =
      .ok ([VEffect.save (str "/in/a.csv"), VEffect.save (str "/in/b.csv")],
        [(str "always_true_validator", true)]) ∧
    (∀ kv ∈ [((str "always_true_validator" : Str), true)],
      ¬ kv.1 = str "/in/a.csv" ∧ ¬ kv.1 = str "/in/b.csv") := by
  exact ⟨by decide, by decide⟩

/-- C7 amended: the processed-files dictionary has distinct keys (each
file appears exactly once); the transform batch returns exactly the
mapping from each processed file path to the outcome computed from
that file's own dataset and rule; the validation batch instead
returns a dictionary whose every key is a validator name of some
processed file's rule, not a file path. -/
theorem C7_amended_batch_results (dict : Str → Option TransformFn)
    (writer : Str → DataFrame → Except Str Unit) (reader : Str → Except Str DataFrame)
    (registry : Registry) (outputFolder fmt : Str) (paths : List Str) :
    (keysOf (to_process_files reader registry paths).1).Nodup ∧
    (transformerExecute dict writer reader registry outputFolder fmt paths).2 =
      (to_process_files reader registry paths).1.map (fun it => (it.1,
        (transformFile dict writer outputFolder fmt it.1 it.2.1
          (registryGet registry it.2.2).transforms).outcome)) ∧
    (∀ (vdict : Str → Option ValidatorFn) (effs : List VEffect) (res : List (Str × Bool)),
      validatorExecute vdict reader registry paths = .ok (effs, res) →
      ∀ x ∈ keysOf res, ∃ it ∈ (to_process_files reader registry paths).1,
        x ∈ keysOf (registryGet registry it.2.2).validators) := by
  have hnd : (keysOf (to_process_files reader registry paths).1).Nodup :=
    (to_process_files_go_nodup reader registry paths [] []
      (by simp [keysOf]) (by simp [keysOf])).1
  refine ⟨hnd, ?_, ?_⟩
  · simp only [transformerExecute]
    rw [transformerBatchLoop_spec dict writer outputFolder fmt registry _ _ [] hnd
      (by intro it _; simp [keysOf])]
    simp
  · intro vdict effs res hv x hx
    simp only [validatorExecute] at hv
    rcases validatorBatchLoop_result_keys vdict registry _ [] [] effs res hv x hx
      with h2 | h2
    · simp [keysOf] at h2
    · exact h2

/-- Witness for C7 amended at a concrete two-file batch. -/
theorem C7_amended_batch_results_witness :
    (transformerExecute tdictW writerOkW readerW registryVW outFolderW (str "csv")
        filesABW).2 =
      (to_process_files readerW registryVW filesABW).1.map (fun it => (it.1,
        (transformFile tdictW writerOkW outFolderW (str "csv") it.1 it.2.1
          (registryGet registryVW it.2.2).transforms).outcome)) ∧
    (∀ x ∈ keysOf [((str "always_true_validator" : Str), true)],
      ∃ it ∈ (to_process_files readerW registryVW filesABW).1,
        x ∈ keysOf (registryGet registryVW it.2.2).validators) :=
  ⟨(C7_amended_batch_results tdictW writerOkW readerW registryVW outFolderW (str "csv")
      filesABW).2.1,
    (C7_amended_batch_results tdictW writerOkW readerW registryVW outFolderW (str "csv")
      filesABW).2.2 VALIDATORS_DICT
      [VEffect.save (str "/in/a.csv"), VEffect.save (str "/in/b.csv")]
      [(str "always_true_validator", true)] (by decide)⟩

/-- Counterexample to C8: a validation batch with one unmatched file
collects it into the error set, but writes no report for it — the only
effect of the whole batch is the save of the matched file. -/
theorem C8_counterexample_validator_ignores_error_files :
    (to_process_files readerW registryC8W filesABW).2 =
      [(str "/in/b.csv", [renderMatchError (.noMatch (str "/in/b.csv"))])] ∧
    validatorExecute VALIDATORS_DICT readerW registryC8W filesABW =
      .ok ([VEffect.save (str "/in/a.csv")], [(str "always_true_validator", true)]) ∧
    (∀ eff ∈ [VEffect.save (str "/in/a.csv")], ¬ vEffectPath eff = str "/in/b.csv") := by
  exact ⟨by decide, by decide, by decide⟩

/-- C8 amended: every unreadable, unsupported, unmatched or
multiply-matched file is collected into the error set and never
reaches the per-file loop of either executor (its path is not a
processed key, and in validation no emitted effect carries its path);
the transformer writes a report call for each error file, while the
validator emits nothing for them. -/
theorem C8_amended_error_files (dict : Str → Option TransformFn)
    (vdict : Str → Option ValidatorFn) (writer : Str → DataFrame → Except Str Unit)
    (reader : Str → Except Str DataFrame) (registry : Registry)
    (outputFolder fmt : Str) (paths : List Str) :
    (∀ e ∈ (to_process_files reader registry paths).2,
      TEffect.report e.1 e.2 ∈
        (transformerExecute dict writer reader registry outputFolder fmt paths).1) ∧
    (∀ e ∈ (to_process_files reader registry paths).2,
      ¬ e.1 ∈ keysOf (to_process_files reader registry paths).1) ∧
    (∀ effs res, validatorExecute vdict reader registry paths = .ok (effs, res) →
      ∀ e ∈ (to_process_files reader registry paths).2, ∀ eff ∈ effs,
        ¬ vEffectPath eff = e.1) := by
  have hnd : (keysOf (to_process_files reader registry paths).1).Nodup :=
    (to_process_files_go_nodup reader registry paths [] []
      (by simp [keysOf]) (by simp [keysOf])).1
  have hdisj : ∀ p, p ∈ keysOf (to_process_files reader registry paths).2 →
      ¬ p ∈ keysOf (to_process_files reader registry paths).1 := by
    intro p hpe hpp
    have h1 := ((to_process_files_go_mem reader registry paths [] [] p).1).mp hpp
    have h2 := ((to_process_files_go_mem reader registry paths [] [] p).2).mp hpe
    rcases h1 with h1 | h1
    · simp [keysOf] at h1
    · rcases h2 with h2 | h2
      · simp [keysOf] at h2
      · exact h2.2 h1.2
  refine ⟨?_, ?_, ?_⟩
  · intro e he
    simp only [transformerExecute]
    rw [transformerBatchLoop_spec dict writer outputFolder fmt registry _ _ [] hnd
      (by intro it _; simp [keysOf])]
    exact List.mem_append_left _ (List.mem_map_of_mem (fun e => TEffect.report e.1 e.2) he)
  · intro e he
    exact hdisj e.1 (List.mem_map_of_mem Prod.fst he)
  · intro effs res hv e he eff heff hpath
    simp only [validatorExecute] at hv
    rcases validatorBatchLoop_effect_paths vdict registry _ [] [] effs res hv eff heff
      with h2 | ⟨it, hit, hit2⟩
    · cases h2
    · exact hdisj e.1 (List.mem_map_of_mem Prod.fst he)
        (by rw [← hpath, hit2]; exact List.mem_map_of_mem Prod.fst hit)

/-- Witness for C8 amended at a concrete batch containing an unmatched
file: the transformer reports it. -/
theorem C8_amended_error_files_witness :
    TEffect.report (str "/in/b.csv") [renderMatchError (.noMatch (str "/in/b.csv"))] ∈
      (transformerExecute tdictW writerOkW readerW registryC8W outFolderW (str "csv")
        filesABW).1 :=
  (C8_amended_error_files tdictW VALIDATORS_DICT writerOkW readerW registryC8W outFolderW
    (str "csv") filesABW).1 (str "/in/b.csv", [renderMatchError (.noMatch (str "/in/b.csv"))])
    (by decide)
